import Mathlib

/-
  Verification of the real-time directory-watch and change-notification
  subsystem of the sambee repository.

  The embedding models, from the source:
    - backend/app/services/directory_monitor.py
        (DirectoryMonitor, MonitoredDirectory: start_monitoring, stop_monitoring,
         start, stop, _cleanup, _reconnect, and one iteration of _monitor_loop)
    - backend/app/api/websocket.py
        (ConnectionManager: connect, disconnect, subscribe, unsubscribe,
         notify_directory_change)

  Python dictionaries are modelled as functions into Option; Python sets as
  duplicate-free lists (insertion order); in-place object mutation as functional
  record update threaded through the dictionary that owns the object.  Network
  and locking side effects are recorded in an explicit event trace.  Exceptions
  are modelled with Except; environment records carry the outcomes of the
  external calls (database lookup, SMB connection attempts, websocket sends,
  the random jitter sample) so that every code path of the source is reachable.
  Float arithmetic of the retry-delay computation is modelled over ℚ.
-/

namespace Sambee

/-- Watch keys are the strings "connection_id:path" used by the source. -/
abbrev Key := String

/-- key = f"{connection_id}:{path}" -/
def mkKey (connection_id path : String) : Key := connection_id ++ ":" ++ path

/-- Dictionary update (Python d[k] = v / del via v = none). -/
def upd {α β : Type} [DecidableEq α] (m : α → β) (k : α) (v : β) : α → β :=
  fun q => if q = k then v else m q

@[simp] theorem upd_same {α β : Type} [DecidableEq α] (m : α → β) (k : α) (v : β) :
    upd m k v k = v := by simp [upd]

theorem upd_ne {α β : Type} [DecidableEq α] (m : α → β) (k : α) (v : β)
    {q : α} (h : q ≠ k) : upd m k v q = m q := by simp [upd, h]

/-- Python set.add on a duplicate-free list. -/
def addElem {α : Type} [DecidableEq α] (l : List α) (a : α) : List α :=
  if a ∈ l then l else l ++ [a]

/-- Observable side effects of the subsystem, in program order. -/
inductive Ev where
  | lockAcquire
  | lockRelease
  | smbConnect
  | sessionConnect
  | treeConnect
  | openCreate
  | watcherCreate
  | threadStart
  | threadJoin
  | watcherCancel
  | watchIssue
  | watchWait
  | openClose
  | treeDisconnect
  | sessionDisconnect
  | connDisconnect
  | waitDelay (d : ℚ)
  | deliver (ws : Nat) (ok : Bool)
  | callbackInvoke (connection_id path : String)
  | logInfo
  | logWarning
  | logError
deriving DecidableEq, Repr

/-- Events that perform network I/O (SMB protocol traffic or websocket sends). -/
def Ev.isNetIo : Ev → Bool
  | .smbConnect | .sessionConnect | .treeConnect | .openCreate
  | .watchIssue | .watchWait | .watcherCancel
  | .openClose | .treeDisconnect | .sessionDisconnect | .connDisconnect => true
  | .deliver _ _ => true
  | _ => false

/-- Resource-release events of MonitoredDirectory._cleanup. -/
def Ev.isRelease : Ev → Bool
  | .openClose | .treeDisconnect | .sessionDisconnect | .connDisconnect => true
  | _ => false

/-- Websocket delivery events of notify_directory_change. -/
def Ev.isDeliverEv : Ev → Bool
  | .deliver _ _ => true
  | _ => false

/-- Mutex acquire/release events. -/
def Ev.isLockEv : Ev → Bool
  | .lockAcquire | .lockRelease => true
  | _ => false

/-- Scans a trace with a lock-depth counter; true when a network-I/O event
occurs while the mutex is held. -/
def ioUnderLockAux : Nat → List Ev → Bool
  | _, [] => false
  | d, Ev.lockAcquire :: t => ioUnderLockAux (d + 1) t
  | d, Ev.lockRelease :: t => ioUnderLockAux (d - 1) t
  | d, e :: t => (e.isNetIo && decide (0 < d)) || ioUnderLockAux d t

def ioUnderLock (t : List Ev) : Bool := ioUnderLockAux 0 t

/-- Lowercasing, as str.lower() applied to the error message. -/
def strLower (s : String) : String := ⟨s.toList.map Char.toLower⟩

def startsWithChars : List Char → List Char → Bool
  | [], _ => true
  | _ :: _, [] => false
  | a :: as, b :: bs => a == b && startsWithChars as bs

def containsChars (nd : List Char) : List Char → Bool
  | [] => startsWithChars nd []
  | b :: bs => startsWithChars nd (b :: bs) || containsChars nd bs

/-- Python substring test: needle in hay. -/
def substrB (needle hay : String) : Bool := containsChars needle.toList hay.toList

-- Connection retry configuration (module constants of directory_monitor.py)
def MAX_RETRY_ATTEMPTS : Nat := 5
def INITIAL_RETRY_DELAY : ℚ := 1
def MAX_RETRY_DELAY : ℚ := 60
def RETRY_BACKOFF_MULTIPLIER : ℚ := 2
def RETRY_JITTER_FACTOR : ℚ := 1 / 10

/-- Exponential backoff base: min(INITIAL_RETRY_DELAY * RETRY_BACKOFF_MULTIPLIER
^ (failures - 1), MAX_RETRY_DELAY), as computed in MonitoredDirectory._reconnect. -/
def baseDelay (failures : Nat) : ℚ :=
  min (INITIAL_RETRY_DELAY * RETRY_BACKOFF_MULTIPLIER ^ (failures - 1)) MAX_RETRY_DELAY

/-- One record of an SMB change-notify batch (action and file name fields). -/
structure ChangeRecord where
  action : Nat
  file_name : String
deriving DecidableEq, Repr

/-- Per-resource failure switches for MonitoredDirectory._cleanup: whether each
release call raises (the exception is caught and logged per resource). -/
structure CleanupEnv where
  openCloseRaises : Bool
  treeRaises : Bool
  sessionRaises : Bool
  connRaises : Bool
deriving DecidableEq, Repr

/-- Environment of MonitoredDirectory.start: whether the SMB
connect/session/tree/open sequence succeeds (failure is modelled at the
first connect step; the except branch runs _cleanup and re-raises). -/
structure StartEnv where
  startOk : Bool
  cleanup : CleanupEnv
deriving DecidableEq, Repr

/-- Environment of stop/stop_monitoring: stopRaises models an unexpected
exception escaping MonitoredDirectory.stop (the except branch of
stop_monitoring); the remaining flags drive the guarded teardown calls. -/
structure TeardownEnv where
  stopRaises : Bool
  cancelRaises : Bool
  joinTimesOut : Bool
  cleanup : CleanupEnv
deriving DecidableEq, Repr

/-- Environment of MonitoredDirectory._reconnect: the random.random() sample,
whether the stop event is set while waiting out the delay, and whether the new
connection attempt succeeds. -/
structure ReconnectEnv where
  r : ℚ
  stopDuringWait : Bool
  connectOk : Bool
deriving DecidableEq, Repr

/-- Result of one blocking watcher.start()/wait() round in _monitor_loop. -/
inductive WatchOutcome where
  | batch (records : List ChangeRecord)
  | noneResult
  | raiseErr (etype msg : String)
  | issueRaise (etype msg : String)
deriving DecidableEq, Repr

/-- Environment of one iteration of MonitoredDirectory._monitor_loop. -/
structure StepEnv where
  outcome : WatchOutcome
  callbackRaises : Bool
  recon : ReconnectEnv
  cleanup : CleanupEnv
deriving DecidableEq, Repr

/-- is_connection_error classification of _monitor_loop (substring heuristics
on the lowercased message plus the exception type name). -/
def is_connection_error (etype msg : String) : Bool :=
  let m := strLower msg
  substrB "socket" m || substrB "connection" m || substrB "closed" m ||
    substrB "timeout" m || substrB "timed out" m ||
    (etype == "TimeoutError" || etype == "ConnectionError" || etype == "OSError")

/-- One monitored directory (class MonitoredDirectory).  SMB resource fields
hold opaque live objects, modelled as Option Unit; _stop_event is the
threading.Event flag. -/
structure MonitoredDirectory where
  connection_id : String
  path : String
  host : String
  share_name : String
  username : String
  password : String
  port : Nat
  on_change_callback : Option Nat
  subscriber_count : Int
  _connection : Option Unit
  _session : Option Unit
  _tree : Option Unit
  _open : Option Unit
  _watcher : Option Unit
  _monitor_thread : Option Unit
  _stop_event : Bool
  _retry_count : Nat
  _consecutive_failures : Nat
deriving DecidableEq, Repr

/-- MonitoredDirectory.__init__ -/
def MonitoredDirectory.init (connection_id path host share_name username password : String)
    (port : Nat) (on_change_callback : Option Nat) : MonitoredDirectory :=
  { connection_id, path, host, share_name, username, password, port, on_change_callback
    subscriber_count := 1
    _connection := none, _session := none, _tree := none, _open := none
    _watcher := none, _monitor_thread := none, _stop_event := false
    _retry_count := 0, _consecutive_failures := 0 }

/-- Trace of one guarded release call: the release is attempted when the
resource is present; a raising release additionally logs a warning, and in
either case control continues (try/except per resource). -/
def relTrace (present : Bool) (e : Ev) (raises : Bool) : List Ev :=
  if present then e :: (if raises then [Ev.logWarning] else []) else []

/-- MonitoredDirectory._cleanup: close the directory handle, disconnect tree,
session, connection — in that order, each inside its own try/except, with the
field reset to None in the finally block. -/
def MonitoredDirectory._cleanup (md : MonitoredDirectory) (env : CleanupEnv) :
    MonitoredDirectory × List Ev :=
  ({ md with _open := none, _tree := none, _session := none, _connection := none },
    relTrace md._open.isSome Ev.openClose env.openCloseRaises
      ++ relTrace md._tree.isSome Ev.treeDisconnect env.treeRaises
      ++ relTrace md._session.isSome Ev.sessionDisconnect env.sessionRaises
      ++ relTrace md._connection.isSome Ev.connDisconnect env.connRaises)

/-- MonitoredDirectory.start: connect, create session, connect tree, open the
directory, create the watcher, then launch the monitor thread — all performed
synchronously in the caller.  On failure the except branch runs _cleanup and
re-raises; the partially built object is discarded by the caller. -/
def MonitoredDirectory.start (md : MonitoredDirectory) (env : StartEnv) :
    MonitoredDirectory × Except Unit Unit × List Ev :=
  if env.startOk then
    ({ md with _connection := some (), _session := some (), _tree := some ()
               _open := some (), _watcher := some (), _monitor_thread := some () },
     .ok (),
     [Ev.smbConnect, Ev.sessionConnect, Ev.treeConnect, Ev.openCreate,
      Ev.watcherCreate, Ev.threadStart])
  else
    let md1 : MonitoredDirectory := { md with _connection := some () }
    let c := md1._cleanup env.cleanup
    (c.1, .error (), Ev.smbConnect :: c.2)

/-- MonitoredDirectory.stop: set the stop event, cancel any pending watcher
(guarded), join the monitor thread with a bounded timeout (warning if it did
not exit), then release the SMB resources via _cleanup. -/
def MonitoredDirectory.stop (md : MonitoredDirectory) (env : TeardownEnv) :
    MonitoredDirectory × List Ev :=
  let md0 : MonitoredDirectory := { md with _stop_event := true }
  let tCancel := relTrace md0._watcher.isSome Ev.watcherCancel env.cancelRaises
  let tJoin := match md0._monitor_thread with
    | some _ => Ev.threadJoin :: (if env.joinTimesOut then [Ev.logWarning] else [])
    | none => []
  let c := md0._cleanup env.cleanup
  (c.1, tCancel ++ tJoin ++ c.2)

/-- MonitoredDirectory._reconnect: increment _consecutive_failures first; above
MAX_RETRY_ATTEMPTS give up (set the stop event, return without an attempt);
otherwise compute the jittered exponential-backoff delay, wait it out (aborting
if the stop event is set), then attempt the full SMB connection sequence.  The
function returns the mutated object together with ok (normal return) or error
(the attempt raised; the connection field was already assigned). -/
def MonitoredDirectory._reconnect (md : MonitoredDirectory) (env : ReconnectEnv) :
    MonitoredDirectory × Except Unit Unit × List Ev :=
  let md1 : MonitoredDirectory :=
    { md with _consecutive_failures := md._consecutive_failures + 1 }
  if MAX_RETRY_ATTEMPTS < md1._consecutive_failures then
    ({ md1 with _stop_event := true }, .ok (), [Ev.logError])
  else
    let base_delay := baseDelay md1._consecutive_failures
    let jitter := base_delay * RETRY_JITTER_FACTOR * (2 * env.r - 1)
    let delay := max 0 (base_delay + jitter)
    if md1._stop_event || env.stopDuringWait then
      (md1, .ok (), [Ev.logInfo, Ev.waitDelay delay])
    else if env.connectOk then
      ({ md1 with _connection := some (), _session := some (), _tree := some ()
                  _open := some (), _watcher := some () },
       .ok (),
       [Ev.logInfo, Ev.waitDelay delay, Ev.smbConnect, Ev.sessionConnect,
        Ev.treeConnect, Ev.openCreate, Ev.watcherCreate, Ev.logInfo])
    else
      ({ md1 with _connection := some () }, .error (),
       [Ev.logInfo, Ev.waitDelay delay, Ev.smbConnect, Ev.logError])

/-- One iteration of MonitoredDirectory._monitor_loop.  Returns the mutated
object, the trace, and whether the loop continues.  A batch result resets the
failure counter, logs each record, invokes the on-change callback once (its
errors are caught), and recreates the watcher.  A connection-classified error
cleans up and reconnects with backoff (any normal _reconnect return resets the
counter); other errors wait 5s and recreate the watcher on the same
connection.  An exception from watcher.start is outside the inner try and ends
the loop. -/
def MonitoredDirectory._monitor_step (md : MonitoredDirectory) (env : StepEnv) :
    MonitoredDirectory × List Ev × Bool :=
  if md._stop_event then (md, [], false)
  else if md._watcher.isNone then (md, [Ev.logWarning], false)
  else
    match env.outcome with
    | .issueRaise _ _ => (md, [Ev.watchIssue, Ev.logError], false)
    | .batch records =>
        let md1 : MonitoredDirectory := { md with _consecutive_failures := 0 }
        let tLogs := records.map fun _ => Ev.logInfo
        let tCb := match md1.on_change_callback with
          | some _ =>
              Ev.callbackInvoke md1.connection_id md1.path
                :: (if env.callbackRaises then [Ev.logError] else [])
          | none => []
        ({ md1 with _watcher := some () },
         Ev.watchIssue :: Ev.watchWait :: (tLogs ++ tCb ++ [Ev.watcherCreate]), true)
    | .noneResult => (md, [Ev.watchIssue, Ev.watchWait], true)
    | .raiseErr etype msg =>
        if is_connection_error etype msg then
          let c := md._cleanup env.cleanup
          let r := c.1._reconnect env.recon
          match r.2.1 with
          | .ok _ =>
              ({ r.1 with _consecutive_failures := 0 },
               Ev.watchIssue :: Ev.watchWait :: Ev.logError :: Ev.logWarning
                 :: (c.2 ++ r.2.2 ++ [Ev.logInfo]), true)
          | .error _ =>
              (r.1,
               Ev.watchIssue :: Ev.watchWait :: Ev.logError :: Ev.logWarning
                 :: (c.2 ++ r.2.2 ++ [Ev.logError]),
               !r.1._stop_event)
        else
          let md1 : MonitoredDirectory :=
            { md with _watcher := if md._open.isSome then some () else md._watcher }
          (md1,
           Ev.watchIssue :: Ev.watchWait :: Ev.logError :: Ev.logInfo :: Ev.waitDelay 5
             :: (if md._open.isSome then [Ev.watcherCreate] else []), true)

/-- The registry (class DirectoryMonitor): the "connection_id:path" → monitor
dictionary and the threading.Lock whose acquire/release appear in the traces. -/
structure DirectoryMonitor where
  _monitors : Key → Option MonitoredDirectory
  _running : Bool

/-- DirectoryMonitor.__init__ -/
def DirectoryMonitor.init : DirectoryMonitor := ⟨fun _ => none, true⟩

/-- DirectoryMonitor.start_monitoring: under the lock, either bump the
subscriber count of an existing monitor, or construct a MonitoredDirectory,
run its (synchronous) start and insert it; a failing start is logged and
re-raised with the registry unchanged. -/
def DirectoryMonitor.start_monitoring (dm : DirectoryMonitor)
    (connection_id path host share_name username password : String) (port : Nat)
    (on_change_callback : Option Nat) (env : StartEnv) :
    DirectoryMonitor × Except Unit Unit × List Ev :=
  let key := mkKey connection_id path
  match dm._monitors key with
  | some md =>
      let md1 : MonitoredDirectory :=
        { md with subscriber_count := md.subscriber_count + 1 }
      ({ dm with _monitors := upd dm._monitors key (some md1) },
       .ok (), [Ev.lockAcquire, Ev.logInfo, Ev.lockRelease])
  | none =>
      let md0 := MonitoredDirectory.init connection_id path host share_name
        username password port on_change_callback
      let s := md0.start env
      match s.2.1 with
      | .ok _ =>
          ({ dm with _monitors := upd dm._monitors key (some s.1) }, .ok (),
           Ev.lockAcquire :: (s.2.2 ++ [Ev.logInfo, Ev.lockRelease]))
      | .error _ =>
          (dm, .error (), Ev.lockAcquire :: (s.2.2 ++ [Ev.logError, Ev.lockRelease]))

/-- DirectoryMonitor.stop_monitoring keyed directly by the map key (the
source's key.split(":", 1) in the websocket layer followed by the f-string
rebuild here is the identity on the key).  Under the lock: decrement the
subscriber count; at zero or below, stop the monitor — an exception from stop
is caught and logged — and delete the entry in the finally block. -/
def DirectoryMonitor.stop_monitoring_key (dm : DirectoryMonitor) (key : Key)
    (env : TeardownEnv) : DirectoryMonitor × List Ev :=
  match dm._monitors key with
  | none => (dm, [Ev.lockAcquire, Ev.logWarning, Ev.lockRelease])
  | some md =>
      let md1 : MonitoredDirectory :=
        { md with subscriber_count := md.subscriber_count - 1 }
      if md1.subscriber_count ≤ 0 then
        let t := if env.stopRaises then [Ev.logError] else (md1.stop env).2
        ({ dm with _monitors := upd dm._monitors key none },
         Ev.lockAcquire :: Ev.logInfo :: (t ++ [Ev.lockRelease]))
      else
        ({ dm with _monitors := upd dm._monitors key (some md1) },
         [Ev.lockAcquire, Ev.logInfo, Ev.lockRelease])

/-- DirectoryMonitor.stop_monitoring(connection_id, path). -/
def DirectoryMonitor.stop_monitoring (dm : DirectoryMonitor)
    (connection_id path : String) (env : TeardownEnv) :
    DirectoryMonitor × List Ev :=
  dm.stop_monitoring_key (mkKey connection_id path) env

/-- One background-thread iteration of the watcher owned by key, seen through
the registry: _monitor_loop and _reconnect mutate only the MonitoredDirectory
object the dictionary aliases and never touch the _monitors dictionary
itself. -/
def watcherStep (dm : DirectoryMonitor) (key : Key) (env : StepEnv) :
    DirectoryMonitor × List Ev :=
  match dm._monitors key with
  | none => (dm, [])
  | some md =>
      let s := md._monitor_step env
      ({ dm with _monitors := upd dm._monitors key (some s.1) }, s.2.1)

/-- The websocket layer (class ConnectionManager): key → set of websockets,
and websocket → set of subscribed keys.  Websockets are identified by their
Python id(), a Nat. -/
structure ConnectionManager where
  active_connections : Key → Option (List Nat)
  subscriptions : Nat → Option (List Key)

/-- ConnectionManager.__init__ -/
def ConnectionManager.init : ConnectionManager := ⟨fun _ => none, fun _ => none⟩

/-- ConnectionManager.connect: accept the websocket and give it an empty
subscription set. -/
def ConnectionManager.connect (cm : ConnectionManager) (ws : Nat) :
    ConnectionManager :=
  { cm with subscriptions := upd cm.subscriptions ws (some []) }

/-- Environment of ConnectionManager.subscribe: dbOk is the conjunction "the
connection_id parses as a UUID, the database row exists and has a share_name";
the connection details read from that row; and the start environment of the
new monitor. -/
structure SubscribeEnv where
  dbOk : Bool
  host : String
  share_name : String
  username : String
  password : String
  port : Nat
  start : StartEnv
deriving DecidableEq, Repr

/-- ConnectionManager.subscribe: record the key in the websocket's
subscription set (if the websocket is known), add the websocket to the key's
subscriber set, and — when this key was not yet tracked — resolve the
connection in the database and start SMB monitoring, every failure being
caught and logged (the on_change_callback passed is notify_directory_change,
identified as callback 0). -/
def ConnectionManager.subscribe (cm : ConnectionManager) (dm : DirectoryMonitor)
    (ws : Nat) (connection_id path : String) (env : SubscribeEnv) :
    ConnectionManager × DirectoryMonitor × List Ev :=
  let key := mkKey connection_id path
  let cm1 := match cm.subscriptions ws with
    | some ks => { cm with subscriptions := upd cm.subscriptions ws (some (addElem ks key)) }
    | none => cm
  let is_new_subscription := (cm1.active_connections key).isNone
  let cur := (cm1.active_connections key).getD []
  let cm2 := { cm1 with
    active_connections := upd cm1.active_connections key (some (addElem cur ws)) }
  if is_new_subscription then
    if env.dbOk then
      let r := dm.start_monitoring connection_id path env.host env.share_name
        env.username env.password env.port (some 0) env.start
      match r.2.1 with
      | .ok _ => (cm2, r.1, r.2.2 ++ [Ev.logInfo])
      | .error _ => (cm2, r.1, r.2.2 ++ [Ev.logError])
    else (cm2, dm, [Ev.logError])
  else (cm2, dm, [])

/-- ConnectionManager.unsubscribe: discard the key from the websocket's
subscription set, discard the websocket from the key's subscriber set, and
stop SMB monitoring when that set becomes empty (the stop_monitoring call is
inside try/except). -/
def ConnectionManager.unsubscribe (cm : ConnectionManager) (dm : DirectoryMonitor)
    (ws : Nat) (connection_id path : String) (env : TeardownEnv) :
    ConnectionManager × DirectoryMonitor × List Ev :=
  let key := mkKey connection_id path
  let cm1 := match cm.subscriptions ws with
    | some ks => { cm with subscriptions := upd cm.subscriptions ws (some (ks.erase key)) }
    | none => cm
  match cm1.active_connections key with
  | none => (cm1, dm, [])
  | some l =>
      let l1 := l.erase ws
      if l1 = [] then
        let r := dm.stop_monitoring connection_id path env
        ({ cm1 with active_connections := upd cm1.active_connections key none },
         r.1, r.2)
      else
        ({ cm1 with active_connections := upd cm1.active_connections key (some l1) },
         dm, [])

/-- The per-key body of ConnectionManager.disconnect: for each key the
websocket was subscribed to, discard it from the key's subscriber set and,
when the set becomes empty, delete the key and stop SMB monitoring (guarded
by try/except). -/
def removeFromKeys (ws : Nat) (env : TeardownEnv) :
    List Key → ConnectionManager → DirectoryMonitor →
    ConnectionManager × DirectoryMonitor × List Ev
  | [], cm, dm => (cm, dm, [])
  | key :: rest, cm, dm =>
      match cm.active_connections key with
      | none => removeFromKeys ws env rest cm dm
      | some l =>
          let l1 := l.erase ws
          if l1 = [] then
            let cm1 : ConnectionManager :=
              { cm with active_connections := upd cm.active_connections key none }
            let r := dm.stop_monitoring_key key env
            let rest1 := removeFromKeys ws env rest cm1 r.1
            (rest1.1, rest1.2.1, r.2 ++ rest1.2.2)
          else
            let cm1 : ConnectionManager :=
              { cm with active_connections := upd cm.active_connections key (some l1) }
            removeFromKeys ws env rest cm1 dm

/-- ConnectionManager.disconnect: snapshot the websocket's subscriptions,
delete its entry, then cascade-unsubscribe it from every key it referenced. -/
def ConnectionManager.disconnect (cm : ConnectionManager) (dm : DirectoryMonitor)
    (ws : Nat) (env : TeardownEnv) :
    ConnectionManager × DirectoryMonitor × List Ev :=
  match cm.subscriptions ws with
  | some ks =>
      let cm1 : ConnectionManager :=
        { cm with subscriptions := upd cm.subscriptions ws none }
      removeFromKeys ws env ks cm1 dm
  | none => (cm, dm, [])

/-- Environment of notify_directory_change: which websocket sends raise, and
the teardown environment used by the disconnect cascade. -/
structure NotifyEnv where
  sendFails : Nat → Bool
  teardown : TeardownEnv

/-- The post-iteration cleanup loop of notify_directory_change: disconnect
each websocket whose delivery failed. -/
def disconnectAll (env : TeardownEnv) :
    List Nat → ConnectionManager → DirectoryMonitor →
    ConnectionManager × DirectoryMonitor × List Ev
  | [], cm, dm => (cm, dm, [])
  | w :: rest, cm, dm =>
      let r := cm.disconnect dm w env
      let r2 := disconnectAll env rest r.1 r.2.1
      (r2.1, r2.2.1, r.2.2 ++ r2.2.2)

/-- ConnectionManager.notify_directory_change: iterate the key's subscriber
set, attempting a send_json to each (failures logged and collected); after
the iteration, disconnect every websocket whose delivery failed. -/
def ConnectionManager.notify_directory_change (cm : ConnectionManager)
    (dm : DirectoryMonitor) (connection_id path : String) (env : NotifyEnv) :
    ConnectionManager × DirectoryMonitor × List Ev :=
  let key := mkKey connection_id path
  match cm.active_connections key with
  | none => (cm, dm, [])
  | some wss =>
      let tDeliver := wss.map fun w => Ev.deliver w (!env.sendFails w)
      let disconnected := wss.filter env.sendFails
      let r := disconnectAll env.teardown disconnected cm dm
      (r.1, r.2.1, tDeliver ++ r.2.2)

/-- The operations of claim C1's interleavings (transport connect plus
subscribe/unsubscribe/disconnect), each carrying its environment. -/
inductive Op where
  | connect (ws : Nat)
  | subscribe (ws : Nat) (connection_id path : String) (env : SubscribeEnv)
  | unsubscribe (ws : Nat) (connection_id path : String) (env : TeardownEnv)
  | disconnect (ws : Nat) (env : TeardownEnv)

def runOp (s : ConnectionManager × DirectoryMonitor) (op : Op) :
    ConnectionManager × DirectoryMonitor :=
  match op with
  | .connect ws => (s.1.connect ws, s.2)
  | .subscribe ws cid path env =>
      let r := s.1.subscribe s.2 ws cid path env
      (r.1, r.2.1)
  | .unsubscribe ws cid path env =>
      let r := s.1.unsubscribe s.2 ws cid path env
      (r.1, r.2.1)
  | .disconnect ws env =>
      let r := s.1.disconnect s.2 ws env
      (r.1, r.2.1)

def initState : ConnectionManager × DirectoryMonitor :=
  (ConnectionManager.init, DirectoryMonitor.init)

def runOps (ops : List Op) : ConnectionManager × DirectoryMonitor :=
  ops.foldl runOp initState

/-- An operation whose watcher start (if any) succeeds: the database lookup
resolves and the SMB connection sequence does not raise. -/
def goodOp : Op → Bool
  | .subscribe _ _ _ env => env.dbOk && env.start.startOk
  | _ => true

/-- The invariant of claim C1 over the two maps: a monitor is registered for a
key iff that key's subscriber set is non-empty; subscriber sets are non-empty
and duplicate-free; every registered monitor carries subscriber_count 1 (the
websocket layer starts it only for the first subscriber). -/
def InvM (a : Key → Option (List Nat)) (m : Key → Option MonitoredDirectory) : Prop :=
  (∀ k, (m k).isSome ↔ ∃ l, a k = some l ∧ l ≠ []) ∧
  (∀ k l, a k = some l → l ≠ [] ∧ l.Nodup) ∧
  (∀ k md, m k = some md → md.subscriber_count = 1)

/-- The system invariant of claim C1. -/
def Inv (cm : ConnectionManager) (dm : DirectoryMonitor) : Prop :=
  InvM cm.active_connections dm._monitors

/-- The key's subscriber set as a list (empty when the key is untracked). -/
def getL (cm : ConnectionManager) (k : Key) : List Nat :=
  (cm.active_connections k).getD []

/-- Well-formedness of the websocket layer within its normal transport
discipline (connect before subscribe): subscriber sets are duplicate-free and
the two mappings are consistent duals in the direction the disconnect cascade
relies on. -/
def WFbus (cm : ConnectionManager) : Prop :=
  (∀ k l, cm.active_connections k = some l → l.Nodup) ∧
  (∀ k w, w ∈ getL cm k → ∃ ks, cm.subscriptions w = some ks ∧ k ∈ ks)

/-- Events of _monitor_loop forwarded to the notification broadcast (the
on_change_callback, which is notify_directory_change). -/
def isForwardEv : Ev → Bool
  | .callbackInvoke _ _ => true
  | _ => false

def countForwarded (t : List Ev) : Nat := t.countP isForwardEv

-- Concrete fixtures used by witnesses and counterexamples.

def cenv0 : CleanupEnv := ⟨false, false, false, false⟩
def tenv0 : TeardownEnv := ⟨false, false, false, cenv0⟩
def senvOk : SubscribeEnv := ⟨true, "h", "s", "u", "p", 445, ⟨true, cenv0⟩⟩
def senvBad : SubscribeEnv := ⟨true, "h", "s", "u", "p", 445, ⟨false, cenv0⟩⟩

/-- A monitored directory in the Watching state. -/
def mdLive : MonitoredDirectory :=
  { MonitoredDirectory.init "c" "d" "h" "s" "u" "p" 445 (some 0) with
    _connection := some (), _session := some (), _tree := some ()
    _open := some (), _watcher := some (), _monitor_thread := some () }

/-- The same watcher after five consecutive reconnect failures. -/
def md5 : MonitoredDirectory := { mdLive with _consecutive_failures := 5 }

def dm5 : DirectoryMonitor := ⟨upd (fun _ => none) "c:d" (some md5), true⟩

def env5 : StepEnv :=
  ⟨.raiseErr "ConnectionError" "connection reset", false, ⟨1/2, false, true⟩, cenv0⟩

-- Helper lemmas about traces.

theorem isRelease_logWarning : Ev.isRelease Ev.logWarning = false := rfl

theorem relTrace_filter_isRelease (p b : Bool) (e : Ev) :
    (relTrace p e b).filter Ev.isRelease =
      if p && e.isRelease then [e] else [] := by
  cases p <;> cases b <;> cases he : e.isRelease <;>
    simp [relTrace, he, isRelease_logWarning]

theorem relTrace_all (p b : Bool) (e : Ev) (q : Ev → Bool)
    (h1 : q e = true) (h2 : q Ev.logWarning = true) :
    (relTrace p e b).all q = true := by
  cases p <;> cases b <;> simp [relTrace, h1, h2]

theorem cleanup_all (md : MonitoredDirectory) (env : CleanupEnv) (q : Ev → Bool)
    (h1 : q Ev.openClose = true) (h2 : q Ev.treeDisconnect = true)
    (h3 : q Ev.sessionDisconnect = true) (h4 : q Ev.connDisconnect = true)
    (h5 : q Ev.logWarning = true) :
    ((md._cleanup env).2).all q = true := by
  simp only [MonitoredDirectory._cleanup, List.all_append, Bool.and_eq_true]
  exact ⟨⟨⟨relTrace_all _ _ _ _ h1 h5, relTrace_all _ _ _ _ h2 h5⟩,
    relTrace_all _ _ _ _ h3 h5⟩, relTrace_all _ _ _ _ h4 h5⟩

theorem stop_all (md : MonitoredDirectory) (env : TeardownEnv) (q : Ev → Bool)
    (h1 : q Ev.openClose = true) (h2 : q Ev.treeDisconnect = true)
    (h3 : q Ev.sessionDisconnect = true) (h4 : q Ev.connDisconnect = true)
    (h5 : q Ev.logWarning = true) (h6 : q Ev.watcherCancel = true)
    (h7 : q Ev.threadJoin = true) :
    ((md.stop env).2).all q = true := by
  simp only [MonitoredDirectory.stop, List.all_append, Bool.and_eq_true]
  refine ⟨⟨relTrace_all _ _ _ _ h6 h5, ?_⟩, cleanup_all _ _ _ h1 h2 h3 h4 h5⟩
  cases md._monitor_thread <;> cases env.joinTimesOut <;> simp [h5, h7]

/-- Claim C7: stopping a watcher releases the SMB resources in strict
reverse-acquisition order (directory handle, then tree, then session, then
connection); each release is attempted independently of the failure switches
of the others; and the four resource fields are cleared afterward. -/
theorem c7_stop_releases_reverse_order :
    ∀ (md : MonitoredDirectory) (env : TeardownEnv),
      ((md.stop env).1._open = none ∧ (md.stop env).1._tree = none ∧
       (md.stop env).1._session = none ∧ (md.stop env).1._connection = none) ∧
      (md.stop env).2.filter Ev.isRelease =
        (if md._open.isSome then [Ev.openClose] else []) ++
          (if md._tree.isSome then [Ev.treeDisconnect] else []) ++
          (if md._session.isSome then [Ev.sessionDisconnect] else []) ++
          (if md._connection.isSome then [Ev.connDisconnect] else []) := by
  intro md env
  constructor
  · exact ⟨rfl, rfl, rfl, rfl⟩
  · simp only [MonitoredDirectory.stop, MonitoredDirectory._cleanup,
      List.filter_append, relTrace_filter_isRelease]
    have hj : List.filter Ev.isRelease
        (match md._monitor_thread with
          | some _ => Ev.threadJoin :: (if env.joinTimesOut then [Ev.logWarning] else [])
          | none => []) = [] := by
      cases md._monitor_thread <;> cases env.joinTimesOut <;> simp [Ev.isRelease]
    simp [hj, Ev.isRelease]

/-- Claim C9: start_monitoring on a key that is already monitored only
increments that monitor's subscriber count — the supplied host, share,
credentials, port and callback are ignored (the stored monitor keeps every
other field), no other key changes, no error is raised, and the whole call is
pure bookkeeping under the lock. -/
theorem c9_existing_key_only_increments :
    ∀ (dm : DirectoryMonitor) (cid path host share user pw : String) (port : Nat)
      (cb : Option Nat) (env : StartEnv) (md : MonitoredDirectory),
      dm._monitors (mkKey cid path) = some md →
      (dm.start_monitoring cid path host share user pw port cb env).2.1 = .ok () ∧
      (dm.start_monitoring cid path host share user pw port cb env).1._monitors
          (mkKey cid path) =
        some { md with subscriber_count := md.subscriber_count + 1 } ∧
      (∀ k, k ≠ mkKey cid path →
        (dm.start_monitoring cid path host share user pw port cb env).1._monitors k =
          dm._monitors k) ∧
      (dm.start_monitoring cid path host share user pw port cb env).2.2 =
        [Ev.lockAcquire, Ev.logInfo, Ev.lockRelease] := by
  intro dm cid path host share user pw port cb env md h
  refine ⟨?_, ?_, ?_, ?_⟩ <;>
    simp [DirectoryMonitor.start_monitoring, h, upd_ne]
  intro k hk
  exact upd_ne _ _ _ hk

def dmOne : DirectoryMonitor := ⟨upd (fun _ => none) "c:d" (some mdLive), true⟩

theorem c9_witness :
    (dmOne.start_monitoring "c" "d" "h2" "s2" "u2" "p2" 446 none
        ⟨false, cenv0⟩).1._monitors "c:d" =
      some { mdLive with subscriber_count := mdLive.subscriber_count + 1 } := by
  have h := c9_existing_key_only_increments dmOne "c" "d" "h2" "s2" "u2" "p2" 446 none
    ⟨false, cenv0⟩ mdLive (by decide)
  have e : mkKey "c" "d" = "c:d" := by decide
  exact e ▸ h.2.1

/-- Claim C10: when the decremented subscriber count reaches zero or below,
stop_monitoring removes the key from the monitors map whether or not
MonitoredDirectory.stop raises — the exception is caught and logged and the
deletion runs in the finally block — and no other key is touched. -/
theorem c10_removal_survives_stop_error :
    ∀ (dm : DirectoryMonitor) (cid path : String) (env : TeardownEnv)
      (md : MonitoredDirectory),
      dm._monitors (mkKey cid path) = some md →
      md.subscriber_count ≤ 1 →
      (dm.stop_monitoring cid path env).1._monitors (mkKey cid path) = none ∧
      (∀ k, k ≠ mkKey cid path →
        (dm.stop_monitoring cid path env).1._monitors k = dm._monitors k) ∧
      (env.stopRaises = true → Ev.logError ∈ (dm.stop_monitoring cid path env).2) := by
  intro dm cid path env md h hc
  have hz : md.subscriber_count - 1 ≤ 0 := by omega
  refine ⟨?_, ?_, ?_⟩ <;>
    simp [DirectoryMonitor.stop_monitoring, DirectoryMonitor.stop_monitoring_key, h, hz]
  · intro k hk
    exact upd_ne _ _ _ hk
  · intro hr
    simp [hr]

theorem c10_witness :
    ((dmOne.stop_monitoring "c" "d" ⟨true, false, false, cenv0⟩).1._monitors "c:d"
        = none) ∧
      Ev.logError ∈ (dmOne.stop_monitoring "c" "d" ⟨true, false, false, cenv0⟩).2 := by
  have h := c10_removal_survives_stop_error dmOne "c" "d" ⟨true, false, false, cenv0⟩
    mdLive (by decide) (by decide)
  have e : mkKey "c" "d" = "c:d" := by decide
  exact ⟨e ▸ h.1, h.2.2 rfl⟩

theorem baseDelay_nonneg (f : Nat) : (0 : ℚ) ≤ baseDelay f := by
  unfold baseDelay INITIAL_RETRY_DELAY RETRY_BACKOFF_MULTIPLIER MAX_RETRY_DELAY
  exact le_min (by positivity) (by norm_num)

/-- Claim C4: each reconnect attempt increments the failure counter before the
delay is computed — the wait issued is min(1 * 2 ^ (failures - 1), 60) for the
incremented counter, plus a jitter of magnitude at most 10 percent of that
base (linear in the uniform sample, so uniformly distributed with it), and
never below 0; the counter resets to 0 on a successful watch result and on a
successful reconnect. -/
theorem c4_backoff_delay_and_reset :
    (∀ (md : MonitoredDirectory) (env : ReconnectEnv),
      md._consecutive_failures + 1 ≤ MAX_RETRY_ATTEMPTS → 0 ≤ env.r → env.r ≤ 1 →
      ∃ j : ℚ,
        Ev.waitDelay (baseDelay (md._consecutive_failures + 1) + j) ∈
            (md._reconnect env).2.2 ∧
          |j| ≤ baseDelay (md._consecutive_failures + 1) * RETRY_JITTER_FACTOR ∧
          0 ≤ baseDelay (md._consecutive_failures + 1) + j) ∧
    (∀ (md : MonitoredDirectory) (env : StepEnv) (records : List ChangeRecord),
      env.outcome = .batch records → md._stop_event = false →
      md._watcher = some () →
      (md._monitor_step env).1._consecutive_failures = 0) ∧
    (∀ (md : MonitoredDirectory) (env : StepEnv) (etype msg : String),
      env.outcome = .raiseErr etype msg → is_connection_error etype msg = true →
      md._stop_event = false → md._watcher = some () →
      md._consecutive_failures + 1 ≤ MAX_RETRY_ATTEMPTS →
      env.recon.stopDuringWait = false → env.recon.connectOk = true →
      (md._monitor_step env).1._consecutive_failures = 0) := by
  refine ⟨?_, ?_, ?_⟩
  · intro md env h5 hr0 hr1
    have hb := baseDelay_nonneg (md._consecutive_failures + 1)
    have habs : |2 * env.r - 1| ≤ 1 := abs_le.mpr ⟨by linarith, by linarith⟩
    have hf : (0 : ℚ) ≤ baseDelay (md._consecutive_failures + 1) * RETRY_JITTER_FACTOR :=
      mul_nonneg hb (by norm_num [RETRY_JITTER_FACTOR])
    have hj : |baseDelay (md._consecutive_failures + 1) * RETRY_JITTER_FACTOR *
        (2 * env.r - 1)| ≤ baseDelay (md._consecutive_failures + 1) * RETRY_JITTER_FACTOR := by
      rw [abs_mul, abs_of_nonneg hf]
      exact mul_le_of_le_one_right hf habs
    have hsmall : baseDelay (md._consecutive_failures + 1) * RETRY_JITTER_FACTOR ≤
        baseDelay (md._consecutive_failures + 1) := by
      rw [RETRY_JITTER_FACTOR]
      nlinarith
    have hpos : 0 ≤ baseDelay (md._consecutive_failures + 1) +
        baseDelay (md._consecutive_failures + 1) * RETRY_JITTER_FACTOR *
          (2 * env.r - 1) := by
      have := (abs_le.mp hj).1
      linarith
    refine ⟨baseDelay (md._consecutive_failures + 1) * RETRY_JITTER_FACTOR *
      (2 * env.r - 1), ?_, hj, hpos⟩
    have hlt : ¬ (MAX_RETRY_ATTEMPTS < md._consecutive_failures + 1) := by omega
    have hmax : max 0 (baseDelay (md._consecutive_failures + 1) +
        baseDelay (md._consecutive_failures + 1) * RETRY_JITTER_FACTOR *
          (2 * env.r - 1)) =
        baseDelay (md._consecutive_failures + 1) +
          baseDelay (md._consecutive_failures + 1) * RETRY_JITTER_FACTOR *
            (2 * env.r - 1) := max_eq_right hpos
    simp only [MonitoredDirectory._reconnect, hlt, if_false, hmax]
    split_ifs <;> simp [hmax]
  · intro md env records ho hs hw
    simp [MonitoredDirectory._monitor_step, hs, hw, ho]
  · intro md env etype msg ho hic hs hw h5 hsw hco
    have hlt : ¬ (MAX_RETRY_ATTEMPTS < md._consecutive_failures + 1) := by omega
    simp [MonitoredDirectory._monitor_step, MonitoredDirectory._cleanup,
      MonitoredDirectory._reconnect, hs, hw, ho, hic, hsw, hco, hlt]

theorem c4_witness :
    (∃ j : ℚ,
      Ev.waitDelay (baseDelay (mdLive._consecutive_failures + 1) + j) ∈
          (mdLive._reconnect ⟨1/2, false, true⟩).2.2 ∧
        |j| ≤ baseDelay (mdLive._consecutive_failures + 1) * RETRY_JITTER_FACTOR ∧
        0 ≤ baseDelay (mdLive._consecutive_failures + 1) + j) ∧
    (mdLive._monitor_step ⟨.batch [⟨1, "f"⟩], false, ⟨1/2, false, true⟩,
        cenv0⟩).1._consecutive_failures = 0 ∧
    (mdLive._monitor_step env5).1._consecutive_failures = 0 := by
  refine ⟨?_, ?_, ?_⟩
  · exact c4_backoff_delay_and_reset.1 mdLive ⟨1/2, false, true⟩ (by decide)
      (by norm_num) (by norm_num)
  · exact c4_backoff_delay_and_reset.2.1 mdLive _ [⟨1, "f"⟩] rfl (by decide) (by decide)
  · exact c4_backoff_delay_and_reset.2.2 mdLive env5 "ConnectionError" "connection reset"
      rfl (by decide) (by decide) (by decide) (by decide) rfl rfl

/-- Claim C3 counterexample: a watcher with 5 consecutive failures that hits a
6th connection error gives up (its stop event is set, no 6th SMB connection
attempt appears in the trace) — yet its entry is NOT removed from
DirectoryMonitor._monitors, contrary to the claim. -/
theorem c3_entry_not_removed_on_giveup :
    ((watcherStep dm5 "c:d" env5).1._monitors "c:d").isSome = true ∧
    (((watcherStep dm5 "c:d" env5).1._monitors "c:d").map
        (fun md => md._stop_event)).getD false = true ∧
    Ev.smbConnect ∉ (watcherStep dm5 "c:d" env5).2 := by
  refine ⟨by decide, by decide, by decide⟩

/-- Claim C3 amended: after 5 consecutive failures the next reconnect request
returns without a 6th connection attempt and sets the stop event (the watcher
transitions to Stopped), but the watcher's background steps never modify the
registry's key-to-watcher map — the dead entry stays in
DirectoryMonitor._monitors until stop_monitoring removes it. -/
theorem c3_giveup_without_sixth_attempt :
    (∀ (md : MonitoredDirectory) (env : ReconnectEnv),
      md._consecutive_failures = MAX_RETRY_ATTEMPTS →
      (md._reconnect env).2.1 = .ok () ∧
      (md._reconnect env).1._stop_event = true ∧
      Ev.smbConnect ∉ (md._reconnect env).2.2) ∧
    (∀ (dm : DirectoryMonitor) (key : Key) (env : StepEnv) (md : MonitoredDirectory),
      dm._monitors key = some md →
      ((watcherStep dm key env).1._monitors key).isSome = true) := by
  constructor
  · intro md env h
    have hlt : MAX_RETRY_ATTEMPTS < md._consecutive_failures + 1 := by omega
    simp [MonitoredDirectory._reconnect, hlt]
  · intro dm key env md h
    simp [watcherStep, h]

theorem c3_witness :
    ((md5._reconnect ⟨1/2, false, true⟩).2.1 = .ok () ∧
      (md5._reconnect ⟨1/2, false, true⟩).1._stop_event = true ∧
      Ev.smbConnect ∉ (md5._reconnect ⟨1/2, false, true⟩).2.2) ∧
    ((watcherStep dm5 "c:d" ⟨.noneResult, false, ⟨1/2, false, true⟩,
        cenv0⟩).1._monitors "c:d").isSome = true := by
  exact ⟨c3_giveup_without_sixth_attempt.1 md5 ⟨1/2, false, true⟩ (by decide),
    c3_giveup_without_sixth_attempt.2 dm5 "c:d" _ md5 (by decide)⟩

/-- Claim C5 counterexample: a batch of 2 change records forwards exactly 1
event to the notification broadcast, not one per record as claimed. -/
theorem c5_one_event_for_two_records :
    countForwarded (mdLive._monitor_step ⟨.batch [⟨1, "f1"⟩, ⟨2, "f2"⟩], false,
        ⟨1/2, false, true⟩, cenv0⟩).2.1 = 1 ∧
    ([(⟨1, "f1"⟩ : ChangeRecord), ⟨2, "f2"⟩].length = 2) ∧
    countForwarded (mdLive._monitor_step ⟨.batch [⟨1, "f1"⟩, ⟨2, "f2"⟩], false,
        ⟨1/2, false, true⟩, cenv0⟩).2.1 ≠
      ([(⟨1, "f1"⟩ : ChangeRecord), ⟨2, "f2"⟩]).length := by
  refine ⟨by decide, by decide, by decide⟩

theorem countForwarded_logs (records : List ChangeRecord) :
    countForwarded (records.map fun _ => Ev.logInfo) = 0 := by
  induction records with
  | nil => rfl
  | cons r rest ih =>
      simp [countForwarded, List.countP_cons, isForwardEv]

/-- Claim C5 amended: whenever the blocking wait-for-change call returns a
batch of records, exactly one event is forwarded to the notification
broadcast for the whole batch — the on-change callback is invoked once,
regardless of the number of records — and the watch call is then reissued
with a freshly created watcher (the loop continues). -/
theorem c5_one_broadcast_per_batch :
    ∀ (md : MonitoredDirectory) (env : StepEnv) (records : List ChangeRecord),
      env.outcome = .batch records → md._stop_event = false →
      md._watcher = some () → md.on_change_callback.isSome = true →
      countForwarded (md._monitor_step env).2.1 = 1 ∧
      Ev.watcherCreate ∈ (md._monitor_step env).2.1 ∧
      (md._monitor_step env).2.2 = true ∧
      (md._monitor_step env).1._watcher = some () := by
  intro md env records ho hs hw hcb
  obtain ⟨c, hc⟩ := Option.isSome_iff_exists.mp hcb
  have hlog := countForwarded_logs records
  unfold countForwarded at hlog
  refine ⟨?_, ?_, ?_, ?_⟩ <;>
    simp only [MonitoredDirectory._monitor_step, hs, hw, ho, hc] <;>
    cases env.callbackRaises <;>
    simp [countForwarded, List.countP_append, List.countP_cons, isForwardEv, hlog]

theorem c5_witness :
    countForwarded (mdLive._monitor_step ⟨.batch [⟨1, "f1"⟩, ⟨2, "f2"⟩, ⟨3, "f3"⟩],
        false, ⟨1/2, false, true⟩, cenv0⟩).2.1 = 1 ∧
    Ev.watcherCreate ∈ (mdLive._monitor_step ⟨.batch [⟨1, "f1"⟩, ⟨2, "f2"⟩, ⟨3, "f3"⟩],
        false, ⟨1/2, false, true⟩, cenv0⟩).2.1 := by
  have h := c5_one_broadcast_per_batch mdLive
    ⟨.batch [⟨1, "f1"⟩, ⟨2, "f2"⟩, ⟨3, "f3"⟩], false, ⟨1/2, false, true⟩, cenv0⟩
    [⟨1, "f1"⟩, ⟨2, "f2"⟩, ⟨3, "f3"⟩] rfl (by decide) (by decide) (by decide)
  exact ⟨h.1, h.2.1⟩

/-- Claim C2 counterexample: the first subscriber's subscribe call itself
performs the SMB connection attempt — Ev.smbConnect appears in the
synchronous trace of ConnectionManager.subscribe, so subscribing does block
on the new watcher's connection attempt (it is not fire-and-forget). -/
theorem c2_subscribe_trace_contains_connect :
    Ev.smbConnect ∈
      (ConnectionManager.init.subscribe DirectoryMonitor.init 1 "c" "d" senvOk).2.2 := by
  decide

/-- Claim C2 amended: the first subscriber's subscribe performs the new
watcher's SMB connection attempt synchronously (the connect event is in
subscribe's own trace, before the watch loop's thread starts), but neither
subscribe nor unsubscribe raises an error to the caller because of watcher
trouble: a failed connection attempt or database lookup leaves the registry
unchanged and surfaces only as a logged event, and a raising
MonitoredDirectory.stop during the last unsubscribe is likewise only logged
while the registry entry is still removed. -/
theorem c2_sync_start_but_never_raises :
    (∀ (cm : ConnectionManager) (dm : DirectoryMonitor) (ws : Nat)
        (cid path : String) (env : SubscribeEnv),
      (cm.active_connections (mkKey cid path)).isNone = true →
      dm._monitors (mkKey cid path) = none →
      (env.dbOk = true → env.start.startOk = true →
        Ev.smbConnect ∈ (cm.subscribe dm ws cid path env).2.2) ∧
      (env.dbOk = true → env.start.startOk = false →
        Ev.logError ∈ (cm.subscribe dm ws cid path env).2.2 ∧
        (cm.subscribe dm ws cid path env).2.1 = dm) ∧
      (env.dbOk = false →
        Ev.logError ∈ (cm.subscribe dm ws cid path env).2.2 ∧
        (cm.subscribe dm ws cid path env).2.1 = dm)) ∧
    (∀ (cm : ConnectionManager) (dm : DirectoryMonitor) (ws : Nat)
        (cid path : String) (env : TeardownEnv) (md : MonitoredDirectory),
      env.stopRaises = true →
      cm.active_connections (mkKey cid path) = some [ws] →
      dm._monitors (mkKey cid path) = some md →
      md.subscriber_count ≤ 1 →
      Ev.logError ∈ (cm.unsubscribe dm ws cid path env).2.2 ∧
      ((cm.unsubscribe dm ws cid path env).2.1)._monitors (mkKey cid path) = none) := by
  constructor
  · intro cm dm ws cid path env hact hmon
    refine ⟨?_, ?_, ?_⟩
    · intro hdb hok
      cases hsub : cm.subscriptions ws <;>
        simp [ConnectionManager.subscribe, DirectoryMonitor.start_monitoring,
          MonitoredDirectory.start, hact, hmon, hsub, hdb, hok]
    · intro hdb hok
      cases hsub : cm.subscriptions ws <;>
        simp [ConnectionManager.subscribe, DirectoryMonitor.start_monitoring,
          MonitoredDirectory.start, hact, hmon, hsub, hdb, hok]
    · intro hdb
      cases hsub : cm.subscriptions ws <;>
        simp [ConnectionManager.subscribe, hact, hsub, hdb]
  · intro cm dm ws cid path env md hraise hact hmon hcnt
    have hz : md.subscriber_count - 1 ≤ 0 := by omega
    cases hsub : cm.subscriptions ws <;>
      simp [ConnectionManager.unsubscribe, DirectoryMonitor.stop_monitoring,
        DirectoryMonitor.stop_monitoring_key, hact, hmon, hsub, hz, hraise,
        List.erase_cons]

theorem c2_witness :
    (Ev.logError ∈
        (ConnectionManager.init.subscribe DirectoryMonitor.init 1 "c" "d" senvBad).2.2 ∧
      (ConnectionManager.init.subscribe DirectoryMonitor.init 1 "c" "d"
        senvBad).2.1 = DirectoryMonitor.init) := by
  have h := c2_sync_start_but_never_raises.1 ConnectionManager.init DirectoryMonitor.init
    1 "c" "d" senvBad (by decide) rfl
  exact h.2.1 rfl rfl

theorem all_map_const {α : Type} (l : List α) (e : Ev) (q : Ev → Bool) (h : q e = true) :
    (l.map fun _ => e).all q = true := by
  induction l <;> simp [*, h]

theorem cleanup_nolock (md : MonitoredDirectory) (env : CleanupEnv) :
    ∀ e ∈ (md._cleanup env).2, e.isLockEv = false := by
  intro e he
  have h := cleanup_all md env (fun e => !e.isLockEv) rfl rfl rfl rfl rfl
  have := List.all_eq_true.mp h e he
  simpa using this

theorem reconnect_nolock (md : MonitoredDirectory) (env : ReconnectEnv) :
    ∀ e ∈ (md._reconnect env).2.2, e.isLockEv = false := by
  cases hs : md._stop_event <;> cases hw : env.stopDuringWait <;>
    cases hc : env.connectOk <;>
    by_cases h1 : MAX_RETRY_ATTEMPTS < md._consecutive_failures + 1 <;>
    simp [MonitoredDirectory._reconnect, hs, hw, hc, h1, Ev.isLockEv]

theorem step_all_nolock (md : MonitoredDirectory) (env : StepEnv) :
    ((md._monitor_step env).2.1).all (fun e => !e.isLockEv) = true := by
  have hclean : ∀ (m : MonitoredDirectory) (c : CleanupEnv),
      ((m._cleanup c).2).all (fun e => !e.isLockEv) = true := fun m c =>
    cleanup_all m c _ rfl rfl rfl rfl rfl
  have hrec : ∀ (m : MonitoredDirectory) (r : ReconnectEnv),
      ((m._reconnect r).2.2).all (fun e => !e.isLockEv) = true := by
    intro m r
    rw [List.all_eq_true]
    intro e he
    simp [reconnect_nolock m r e he]
  cases hs : md._stop_event with
  | true => simp [MonitoredDirectory._monitor_step, hs]
  | false =>
    cases hwn : md._watcher.isNone with
    | true => simp [MonitoredDirectory._monitor_step, hs, hwn, Ev.isLockEv]
    | false =>
      cases ho : env.outcome with
      | batch records =>
        cases hcb : md.on_change_callback <;> cases hcr : env.callbackRaises <;>
          simp [MonitoredDirectory._monitor_step, hs, hwn, ho, hcb, hcr, Ev.isLockEv,
            List.all_append, all_map_const]
      | noneResult => simp [MonitoredDirectory._monitor_step, hs, hwn, ho, Ev.isLockEv]
      | raiseErr etype msg =>
        by_cases hic : is_connection_error etype msg
        · rcases hex : ((md._cleanup env.cleanup).1._reconnect env.recon).2.1 with a | a <;>
            simp [MonitoredDirectory._monitor_step, hs, hwn, ho, hic, hex, Ev.isLockEv,
              List.all_append, hclean, hrec] <;>
            exact ⟨fun x hx => cleanup_nolock md env.cleanup x hx,
              fun x hx => reconnect_nolock ((md._cleanup env.cleanup).1) env.recon x hx⟩
        · cases hop : md._open.isSome <;>
            simp [MonitoredDirectory._monitor_step, hs, hwn, ho, hic, hop, Ev.isLockEv]
      | issueRaise etype msg =>
        simp [MonitoredDirectory._monitor_step, hs, hwn, ho, Ev.isLockEv]

theorem ioUnderLockAux_of_mem (d : Nat) (hd : 0 < d) :
    ∀ (t rest : List Ev), (∀ e ∈ t, e.isLockEv = false) →
      (∃ e ∈ t, e.isNetIo = true) → ioUnderLockAux d (t ++ rest) = true := by
  intro t
  induction t with
  | nil =>
      intro rest _ hex
      rcases hex with ⟨e, he, _⟩
      cases he
  | cons e t ih =>
      intro rest hnl hex
      have hel : e.isLockEv = false := hnl e (List.mem_cons_self e t)
      have hstep : ioUnderLockAux d ((e :: t) ++ rest) =
          ((e.isNetIo && decide (0 < d)) || ioUnderLockAux d (t ++ rest)) := by
        cases e <;> first | rfl | simp [Ev.isLockEv] at hel
      rcases hex with ⟨e0, he0, hio⟩
      rcases List.mem_cons.mp he0 with rfl | he0t
      · rw [hstep, hio]
        simp [hd]
      · rw [hstep,
          ih rest (fun x hx => hnl x (List.mem_cons_of_mem _ hx)) ⟨e0, he0t, hio⟩]
        simp

theorem stop_mem_connDisconnect (md : MonitoredDirectory) (env : TeardownEnv)
    (h : md._connection = some ()) : Ev.connDisconnect ∈ (md.stop env).2 := by
  simp [MonitoredDirectory.stop, MonitoredDirectory._cleanup, relTrace, h]

theorem stop_nolock (md : MonitoredDirectory) (env : TeardownEnv) :
    ∀ e ∈ (md.stop env).2, e.isLockEv = false := by
  intro e he
  have h := stop_all md env (fun e => !e.isLockEv) rfl rfl rfl rfl rfl rfl rfl
  have h2 := List.all_eq_true.mp h e he
  simpa using h2

/-- Claim C8 counterexample: DirectoryMonitor.start_monitoring for a fresh key
holds the registry mutex across the watcher's SMB connection I/O — network
events occur between lockAcquire and lockRelease in its trace. -/
theorem c8_lock_held_across_connect :
    ioUnderLock ((DirectoryMonitor.init.start_monitoring "c" "d" "h" "s" "u" "p" 445
      (some 0) ⟨true, cenv0⟩).2.2) = true := by
  decide

/-- Claim C8 amended: the registry mutex is held across the watcher's
connection I/O by a first-subscriber start_monitoring (and across teardown by
a last-subscriber stop_monitoring); only the pure bookkeeping paths — a
subscriber-count increment for an existing key and a decrement that does not
reach zero — hold the lock without any I/O, and the watcher's own monitor
loop performs its I/O entirely outside the lock (its trace contains no lock
events). -/
theorem c8_lock_discipline :
    (∀ (dm : DirectoryMonitor) (cid path host share user pw : String) (port : Nat)
        (cb : Option Nat) (env : StartEnv) (md : MonitoredDirectory),
      dm._monitors (mkKey cid path) = some md →
      ioUnderLock (dm.start_monitoring cid path host share user pw port cb env).2.2
        = false) ∧
    (∀ (dm : DirectoryMonitor) (cid path : String) (env : TeardownEnv)
        (md : MonitoredDirectory),
      dm._monitors (mkKey cid path) = some md → 1 < md.subscriber_count →
      ioUnderLock (dm.stop_monitoring cid path env).2 = false) ∧
    (∀ (md : MonitoredDirectory) (env : StepEnv),
      ((md._monitor_step env).2.1).all (fun e => !e.isLockEv) = true) ∧
    (∀ (dm : DirectoryMonitor) (cid path host share user pw : String) (port : Nat)
        (cb : Option Nat) (env : StartEnv),
      dm._monitors (mkKey cid path) = none → env.startOk = true →
      ioUnderLock (dm.start_monitoring cid path host share user pw port cb env).2.2
        = true) ∧
    (∀ (dm : DirectoryMonitor) (cid path : String) (env : TeardownEnv)
        (md : MonitoredDirectory),
      dm._monitors (mkKey cid path) = some md → md.subscriber_count ≤ 1 →
      env.stopRaises = false → md._connection = some () →
      ioUnderLock (dm.stop_monitoring cid path env).2 = true) := by
  refine ⟨?_, ?_, step_all_nolock, ?_, ?_⟩
  · intro dm cid path host share user pw port cb env md h
    simp [DirectoryMonitor.start_monitoring, h]
    decide
  · intro dm cid path env md h hc
    have hz : ¬ (md.subscriber_count - 1 ≤ 0) := by omega
    simp [DirectoryMonitor.stop_monitoring, DirectoryMonitor.stop_monitoring_key, h, hz]
    decide
  · intro dm cid path host share user pw port cb env h hok
    simp [DirectoryMonitor.start_monitoring, MonitoredDirectory.start, h, hok]
    decide
  · intro dm cid path env md h hc hraise hconn
    have hz : md.subscriber_count - 1 ≤ 0 := by omega
    simp only [DirectoryMonitor.stop_monitoring, DirectoryMonitor.stop_monitoring_key,
      h, hz, if_true, hraise, Bool.false_eq_true, if_false, reduceIte]
    show ioUnderLockAux 1
      ((({ md with subscriber_count := md.subscriber_count - 1 }
          : MonitoredDirectory).stop env).2 ++ [Ev.lockRelease]) = true
    refine ioUnderLockAux_of_mem 1 (by decide) _ _
      (stop_nolock _ env) ⟨Ev.connDisconnect, ?_, rfl⟩
    exact stop_mem_connDisconnect _ env hconn

theorem c8_witness :
    ioUnderLock ((dmOne.start_monitoring "c" "d" "h" "s" "u" "p" 445 (some 0)
        ⟨true, cenv0⟩).2.2) = false ∧
    ((mdLive._monitor_step env5).2.1).all (fun e => !e.isLockEv) = true ∧
    ioUnderLock ((dmOne.stop_monitoring "c" "d" tenv0).2) = true := by
  exact ⟨c8_lock_discipline.1 dmOne "c" "d" "h" "s" "u" "p" 445 (some 0)
      ⟨true, cenv0⟩ mdLive (by decide),
    c8_lock_discipline.2.2.1 mdLive env5,
    c8_lock_discipline.2.2.2.2 dmOne "c" "d" tenv0 mdLive (by decide) (by decide)
      rfl rfl⟩

theorem addElem_ne_nil {α : Type} [DecidableEq α] (l : List α) (a : α) :
    addElem l a ≠ [] := by
  unfold addElem
  split
  · exact List.ne_nil_of_mem (by assumption)
  · simp

theorem addElem_nodup {α : Type} [DecidableEq α] {l : List α} (h : l.Nodup)
    (a : α) : (addElem l a).Nodup := by
  unfold addElem
  split
  · exact h
  · rename_i ha
    simp [List.nodup_append, h, ha]

theorem stop_mon_last (dm : DirectoryMonitor) (key : Key) (env : TeardownEnv)
    (md : MonitoredDirectory) (h : dm._monitors key = some md)
    (hc : md.subscriber_count ≤ 1) :
    (dm.stop_monitoring_key key env).1._monitors = upd dm._monitors key none := by
  have hz : md.subscriber_count - 1 ≤ 0 := by omega
  simp [DirectoryMonitor.stop_monitoring_key, h, hz]

theorem inv_connect (cm : ConnectionManager) (dm : DirectoryMonitor) (ws : Nat)
    (h : Inv cm dm) : Inv (cm.connect ws) dm := h

theorem invM_del (a : Key → Option (List Nat)) (m : Key → Option MonitoredDirectory)
    (key : Key) (h : InvM a m) : InvM (upd a key none) (upd m key none) := by
  obtain ⟨h1, h2, h3⟩ := h
  refine ⟨fun k => ?_, fun k l hl => ?_, fun k md hmd => ?_⟩
  · by_cases hk : k = key
    · subst hk
      simp
    · rw [upd_ne _ _ _ hk, upd_ne _ _ _ hk]
      exact h1 k
  · by_cases hk : k = key
    · subst hk
      rw [upd_same] at hl
      cases hl
    · rw [upd_ne _ _ _ hk] at hl
      exact h2 k l hl
  · by_cases hk : k = key
    · subst hk
      rw [upd_same] at hmd
      cases hmd
    · rw [upd_ne _ _ _ hk] at hmd
      exact h3 k md hmd

theorem invM_replace (a : Key → Option (List Nat)) (m : Key → Option MonitoredDirectory)
    (key : Key) (l' : List Nat) (hne : l' ≠ []) (hnd : l'.Nodup)
    (hmem : (m key).isSome) (h : InvM a m) : InvM (upd a key (some l')) m := by
  obtain ⟨h1, h2, h3⟩ := h
  refine ⟨fun k => ?_, fun k l hl => ?_, h3⟩
  · by_cases hk : k = key
    · subst hk
      rw [upd_same]
      exact ⟨fun _ => ⟨l', rfl, hne⟩, fun _ => hmem⟩
    · rw [upd_ne _ _ _ hk]
      exact h1 k
  · by_cases hk : k = key
    · subst hk
      rw [upd_same] at hl
      cases hl
      exact ⟨hne, hnd⟩
    · rw [upd_ne _ _ _ hk] at hl
      exact h2 k l hl

theorem invM_insert (a : Key → Option (List Nat)) (m : Key → Option MonitoredDirectory)
    (key : Key) (l' : List Nat) (md1 : MonitoredDirectory) (hne : l' ≠ [])
    (hnd : l'.Nodup) (hc : md1.subscriber_count = 1) (h : InvM a m) :
    InvM (upd a key (some l')) (upd m key (some md1)) := by
  obtain ⟨h1, h2, h3⟩ := h
  refine ⟨fun k => ?_, fun k l hl => ?_, fun k md hmd => ?_⟩
  · by_cases hk : k = key
    · subst hk
      rw [upd_same, upd_same]
      exact ⟨fun _ => ⟨l', rfl, hne⟩, fun _ => rfl⟩
    · rw [upd_ne _ _ _ hk, upd_ne _ _ _ hk]
      exact h1 k
  · by_cases hk : k = key
    · subst hk
      rw [upd_same] at hl
      cases hl
      exact ⟨hne, hnd⟩
    · rw [upd_ne _ _ _ hk] at hl
      exact h2 k l hl
  · by_cases hk : k = key
    · subst hk
      rw [upd_same] at hmd
      cases hmd
      exact hc
    · rw [upd_ne _ _ _ hk] at hmd
      exact h3 k md hmd

/-- Core bookkeeping step shared by unsubscribe and the disconnect cascade:
one key's subscriber list loses ws and the registry entry is stopped exactly
when the list empties. -/
theorem inv_eraseKey (cm : ConnectionManager) (dm : DirectoryMonitor) (ws : Nat)
    (key : Key) (env : TeardownEnv) (l : List Nat)
    (hact : cm.active_connections key = some l) (h : Inv cm dm) :
    (l.erase ws = [] →
      InvM (upd cm.active_connections key none)
        ((dm.stop_monitoring_key key env).1._monitors)) ∧
    (l.erase ws ≠ [] →
      InvM (upd cm.active_connections key (some (l.erase ws))) dm._monitors) := by
  constructor
  · intro _
    obtain ⟨md, hmd⟩ := Option.isSome_iff_exists.mp
      ((h.1 key).mpr ⟨l, hact, (h.2.1 _ _ hact).1⟩)
    have hcnt := h.2.2 key md hmd
    rw [stop_mon_last dm key env md hmd (by omega)]
    exact invM_del _ _ key h
  · intro he
    exact invM_replace _ _ key _ he ((h.2.1 _ _ hact).2.erase ws)
      ((h.1 key).mpr ⟨l, hact, (h.2.1 _ _ hact).1⟩) h

theorem inv_unsubscribe (cm : ConnectionManager) (dm : DirectoryMonitor) (ws : Nat)
    (cid path : String) (env : TeardownEnv) (h : Inv cm dm) :
    Inv (cm.unsubscribe dm ws cid path env).1
      (cm.unsubscribe dm ws cid path env).2.1 := by
  cases hact : cm.active_connections (mkKey cid path) with
  | none =>
      cases hsub : cm.subscriptions ws <;>
        simp only [ConnectionManager.unsubscribe, hsub, hact] <;>
        exact h
  | some l =>
      have hkey := inv_eraseKey cm dm ws (mkKey cid path) env l hact h
      by_cases he : l.erase ws = []
      · cases hsub : cm.subscriptions ws <;>
          simp only [ConnectionManager.unsubscribe, DirectoryMonitor.stop_monitoring,
            hsub, hact, he, if_true, reduceIte] <;>
          exact hkey.1 he
      · cases hsub : cm.subscriptions ws <;>
          simp only [ConnectionManager.unsubscribe, hsub, hact, he, if_false,
            reduceIte] <;>
          exact hkey.2 he

theorem inv_removeFromKeys (ws : Nat) (env : TeardownEnv) :
    ∀ (ks : List Key) (cm : ConnectionManager) (dm : DirectoryMonitor),
      Inv cm dm →
      Inv (removeFromKeys ws env ks cm dm).1 (removeFromKeys ws env ks cm dm).2.1 := by
  intro ks
  induction ks with
  | nil =>
      intro cm dm h
      simpa [removeFromKeys] using h
  | cons key rest ih =>
      intro cm dm h
      cases hact : cm.active_connections key with
      | none =>
          simp only [removeFromKeys, hact]
          exact ih cm dm h
      | some l =>
          have hkey := inv_eraseKey cm dm ws key env l hact h
          by_cases he : l.erase ws = []
          · simp only [removeFromKeys, hact, he, if_true, reduceIte]
            exact ih _ _ (hkey.1 he)
          · simp only [removeFromKeys, hact, he, if_false, reduceIte]
            exact ih _ _ (hkey.2 he)

theorem inv_disconnect (cm : ConnectionManager) (dm : DirectoryMonitor) (ws : Nat)
    (env : TeardownEnv) (h : Inv cm dm) :
    Inv (cm.disconnect dm ws env).1 (cm.disconnect dm ws env).2.1 := by
  cases hsub : cm.subscriptions ws with
  | none =>
      simp only [ConnectionManager.disconnect, hsub]
      exact h
  | some ks =>
      simp only [ConnectionManager.disconnect, hsub]
      exact inv_removeFromKeys ws env ks _ dm h

theorem inv_subscribe (cm : ConnectionManager) (dm : DirectoryMonitor) (ws : Nat)
    (cid path : String) (env : SubscribeEnv) (h : Inv cm dm)
    (hdb : env.dbOk = true) (hok : env.start.startOk = true) :
    Inv (cm.subscribe dm ws cid path env).1
      (cm.subscribe dm ws cid path env).2.1 := by
  cases hact : cm.active_connections (mkKey cid path) with
  | some l =>
      have hmem : (dm._monitors (mkKey cid path)).isSome :=
        (h.1 _).mpr ⟨l, hact, (h.2.1 _ _ hact).1⟩
      have hstep : InvM (upd cm.active_connections (mkKey cid path)
          (some (addElem l ws))) dm._monitors :=
        invM_replace _ _ _ _ (addElem_ne_nil l ws)
          (addElem_nodup (h.2.1 _ _ hact).2 ws) hmem h
      cases hsub : cm.subscriptions ws <;>
        simp only [ConnectionManager.subscribe, hsub, hact, Option.isNone_some,
          Bool.false_eq_true, if_false, Option.getD_some, reduceIte] <;>
        exact hstep
  | none =>
      have hmon : dm._monitors (mkKey cid path) = none := by
        rcases hm : dm._monitors (mkKey cid path) with _ | md
        · rfl
        · have h0 := (h.1 (mkKey cid path)).mp (by simp [hm])
          rcases h0 with ⟨l', hl', _⟩
          rw [hact] at hl'
          cases hl'
      have hstep : ∀ md1 : MonitoredDirectory, md1.subscriber_count = 1 →
          InvM (upd cm.active_connections (mkKey cid path) (some (addElem [] ws)))
            (upd dm._monitors (mkKey cid path) (some md1)) := fun md1 hc =>
        invM_insert _ _ _ _ md1 (addElem_ne_nil [] ws) (by simp [addElem]) hc h
      cases hsub : cm.subscriptions ws <;>
        simp only [ConnectionManager.subscribe, DirectoryMonitor.start_monitoring,
          MonitoredDirectory.start, MonitoredDirectory.init, hsub, hact, hmon, hdb,
          hok, Option.isNone_none, if_true, Option.getD_none, reduceIte] <;>
        exact hstep _ rfl

theorem inv_init : Inv ConnectionManager.init DirectoryMonitor.init := by
  unfold Inv InvM
  refine ⟨?_, ?_, ?_⟩
  · intro k
    simp [ConnectionManager.init, DirectoryMonitor.init]
  · intro k l h
    cases h
  · intro k md h
    cases h

theorem inv_run :
    ∀ (ops : List Op) (s : ConnectionManager × DirectoryMonitor),
      Inv s.1 s.2 → ops.all goodOp = true →
      Inv (ops.foldl runOp s).1 (ops.foldl runOp s).2 := by
  intro ops
  induction ops with
  | nil =>
      intro s h _
      simpa using h
  | cons op rest ih =>
      intro s h hg
      rw [List.all_cons, Bool.and_eq_true] at hg
      refine ih (runOp s op) ?_ hg.2
      cases op with
      | connect ws => exact inv_connect s.1 s.2 ws h
      | subscribe ws cid path env =>
          have hgo := hg.1
          rw [goodOp, Bool.and_eq_true] at hgo
          exact inv_subscribe s.1 s.2 ws cid path env h hgo.1 hgo.2
      | unsubscribe ws cid path env => exact inv_unsubscribe s.1 s.2 ws cid path env h
      | disconnect ws env => exact inv_disconnect s.1 s.2 ws env h

/-- Claim C1 counterexample: a single subscribe whose watcher start fails (the
SMB connection raises; the websocket layer catches and logs) leaves the key's
subscriber set non-empty while no MonitoredDirectory is present in
DirectoryMonitor._monitors — the claimed iff is violated. -/
theorem c1_iff_fails_on_failed_start :
    (runOps [Op.connect 1, Op.subscribe 1 "c" "d" senvBad]).1.active_connections
        "c:d" = some [1] ∧
    ((runOps [Op.connect 1, Op.subscribe 1 "c" "d" senvBad]).2._monitors
        "c:d").isSome = false := by
  refine ⟨by decide, by decide⟩

/-- Claim C1 amended: for every interleaving of connect, subscribe,
unsubscribe and disconnect in which every subscribe's watcher start succeeds
(the database lookup resolves and MonitoredDirectory.start does not raise), a
MonitoredDirectory is present in DirectoryMonitor._monitors for a key iff
that key's subscriber set in active_connections is non-empty — and the
registry, being a map, holds at most one monitor per key.  A subscribe whose
watcher start fails breaks the iff, leaving a non-empty subscriber set with
no watcher. -/
theorem c1_monitor_iff_subscribers :
    ∀ (ops : List Op), ops.all goodOp = true →
      ∀ k, ((runOps ops).2._monitors k).isSome ↔
        ∃ l, (runOps ops).1.active_connections k = some l ∧ l ≠ [] := by
  intro ops hg
  exact (inv_run ops initState inv_init hg).1

theorem c1_witness :
    ((runOps [Op.connect 1, Op.connect 2, Op.subscribe 1 "c" "d" senvOk,
        Op.subscribe 2 "c" "d" senvOk, Op.unsubscribe 1 "c" "d" tenv0,
        Op.disconnect 2 tenv0]).2._monitors "c:d").isSome = false := by
  have h := c1_monitor_iff_subscribers
    [Op.connect 1, Op.connect 2, Op.subscribe 1 "c" "d" senvOk,
      Op.subscribe 2 "c" "d" senvOk, Op.unsubscribe 1 "c" "d" tenv0,
      Op.disconnect 2 tenv0] (by decide) "c:d"
  have hnone : (runOps [Op.connect 1, Op.connect 2, Op.subscribe 1 "c" "d" senvOk,
      Op.subscribe 2 "c" "d" senvOk, Op.unsubscribe 1 "c" "d" tenv0,
      Op.disconnect 2 tenv0]).1.active_connections "c:d" = none := by decide
  cases hs : ((runOps [Op.connect 1, Op.connect 2, Op.subscribe 1 "c" "d" senvOk,
      Op.subscribe 2 "c" "d" senvOk, Op.unsubscribe 1 "c" "d" tenv0,
      Op.disconnect 2 tenv0]).2._monitors "c:d").isSome with
  | false => rfl
  | true =>
      obtain ⟨l, hl, _⟩ := h.mp hs
      rw [hnone] at hl
      cases hl

theorem getL_mk (a : Key → Option (List Nat)) (s : Nat → Option (List Key))
    (k : Key) : getL ⟨a, s⟩ k = (a k).getD [] := rfl

theorem getL_eq (cm : ConnectionManager) (k : Key) (l : List Nat)
    (h : cm.active_connections k = some l) : getL cm k = l := by
  simp [getL, h]

theorem stop_monitoring_key_no_deliver (dm : DirectoryMonitor) (key : Key)
    (env : TeardownEnv) :
    ∀ e ∈ (dm.stop_monitoring_key key env).2, e.isDeliverEv = false := by
  intro e he
  rw [DirectoryMonitor.stop_monitoring_key] at he
  cases hm : dm._monitors key with
  | none =>
      simp only [hm] at he
      simp only [List.mem_cons, List.not_mem_nil, or_false] at he
      rcases he with rfl | rfl | rfl <;> rfl
  | some md =>
      simp only [hm] at he
      by_cases hz : md.subscriber_count - 1 ≤ 0
      · rw [if_pos hz] at he
        simp only [List.mem_cons, List.mem_append, List.mem_singleton,
          List.not_mem_nil, or_false] at he
        rcases he with rfl | rfl | he | rfl
        · rfl
        · rfl
        · cases hr : env.stopRaises <;> rw [hr] at he
          · have hall := stop_all
              ({ md with subscriber_count := md.subscriber_count - 1 }) env
              (fun e => !e.isDeliverEv) rfl rfl rfl rfl rfl rfl rfl
            have h2 := List.all_eq_true.mp hall e he
            simpa using h2
          · simp at he
            subst he
            rfl
        · rfl
      · rw [if_neg hz] at he
        simp only [List.mem_cons, List.not_mem_nil, or_false] at he
        rcases he with rfl | rfl | rfl <;> rfl

theorem removeFromKeys_no_deliver (ws : Nat) (env : TeardownEnv) :
    ∀ (ks : List Key) (cm : ConnectionManager) (dm : DirectoryMonitor),
      ∀ e ∈ (removeFromKeys ws env ks cm dm).2.2, e.isDeliverEv = false := by
  intro ks
  induction ks with
  | nil =>
      intro cm dm e he
      simp [removeFromKeys] at he
  | cons key rest ih =>
      intro cm dm e he
      rw [removeFromKeys] at he
      cases hact : cm.active_connections key with
      | none =>
          simp only [hact] at he
          exact ih cm dm e he
      | some l =>
          simp only [hact] at he
          by_cases he' : l.erase ws = []
          · rw [if_pos he'] at he
            simp only [List.mem_append] at he
            rcases he with he | he
            · exact stop_monitoring_key_no_deliver dm key env e he
            · exact ih _ _ e he
          · rw [if_neg he'] at he
            exact ih _ _ e he

theorem disconnect_no_deliver (cm : ConnectionManager) (dm : DirectoryMonitor)
    (ws : Nat) (env : TeardownEnv) :
    ∀ e ∈ (cm.disconnect dm ws env).2.2, e.isDeliverEv = false := by
  intro e he
  rw [ConnectionManager.disconnect] at he
  cases hsub : cm.subscriptions ws with
  | none =>
      simp only [hsub] at he
      simp at he
  | some ks =>
      simp only [hsub] at he
      exact removeFromKeys_no_deliver ws env ks _ dm e he

theorem disconnectAll_no_deliver (env : TeardownEnv) :
    ∀ (l : List Nat) (cm : ConnectionManager) (dm : DirectoryMonitor),
      ∀ e ∈ (disconnectAll env l cm dm).2.2, e.isDeliverEv = false := by
  intro l
  induction l with
  | nil =>
      intro cm dm e he
      simp [disconnectAll] at he
  | cons w rest ih =>
      intro cm dm e he
      rw [disconnectAll] at he
      simp only [List.mem_append] at he
      rcases he with he | he
      · exact disconnect_no_deliver cm dm w env e he
      · exact ih _ _ e he

theorem removeFromKeys_subs (ws : Nat) (env : TeardownEnv) :
    ∀ (ks : List Key) (cm : ConnectionManager) (dm : DirectoryMonitor),
      (removeFromKeys ws env ks cm dm).1.subscriptions = cm.subscriptions := by
  intro ks
  induction ks with
  | nil =>
      intro cm dm
      rfl
  | cons key rest ih =>
      intro cm dm
      rw [removeFromKeys]
      cases hact : cm.active_connections key with
      | none =>
          simp only [hact]
          exact ih cm dm
      | some l =>
          simp only [hact]
          by_cases he : l.erase ws = []
          · rw [if_pos he]
            exact ih _ _
          · rw [if_neg he]
            exact ih _ _

theorem removeFromKeys_shrink (ws : Nat) (env : TeardownEnv) :
    ∀ (ks : List Key) (cm : ConnectionManager) (dm : DirectoryMonitor)
      (w : Nat) (k : Key),
      w ∈ getL (removeFromKeys ws env ks cm dm).1 k → w ∈ getL cm k := by
  intro ks
  induction ks with
  | nil =>
      intro cm dm w k h
      exact h
  | cons key rest ih =>
      intro cm dm w k h
      rw [removeFromKeys] at h
      cases hact : cm.active_connections key with
      | none =>
          simp only [hact] at h
          exact ih cm dm w k h
      | some l =>
          simp only [hact] at h
          by_cases he : l.erase ws = []
          · rw [if_pos he] at h
            have h2 := ih _ _ w k h
            rw [getL_mk] at h2
            by_cases hk : k = key
            · rw [hk, upd_same] at h2
              simp at h2
            · rw [upd_ne _ _ _ hk] at h2
              exact h2
          · rw [if_neg he] at h
            have h2 := ih _ _ w k h
            rw [getL_mk] at h2
            by_cases hk : k = key
            · rw [hk, upd_same] at h2
              simp only [Option.getD_some] at h2
              rw [hk, getL_eq cm key l hact]
              exact (l.erase_subset _) h2
            · rw [upd_ne _ _ _ hk] at h2
              exact h2

theorem removeFromKeys_keep (ws : Nat) (env : TeardownEnv) :
    ∀ (ks : List Key) (cm : ConnectionManager) (dm : DirectoryMonitor)
      (w : Nat) (k : Key), w ≠ ws → w ∈ getL cm k →
      w ∈ getL (removeFromKeys ws env ks cm dm).1 k := by
  intro ks
  induction ks with
  | nil =>
      intro cm dm w k _ h
      exact h
  | cons key rest ih =>
      intro cm dm w k hne h
      rw [removeFromKeys]
      cases hact : cm.active_connections key with
      | none =>
          simp only [hact]
          exact ih cm dm w k hne h
      | some l =>
          simp only [hact]
          by_cases he : l.erase ws = []
          · rw [if_pos he]
            by_cases hk : k = key
            · rw [hk, getL_eq cm key l hact] at h
              have hmem : w ∈ l.erase ws := (List.mem_erase_of_ne hne).mpr h
              rw [he] at hmem
              cases hmem
            · refine ih _ _ w k hne ?_
              rw [getL_mk, upd_ne _ _ _ hk]
              exact h
          · rw [if_neg he]
            by_cases hk : k = key
            · rw [hk]
              refine ih _ _ w key hne ?_
              rw [getL_mk, upd_same]
              simp only [Option.getD_some]
              rw [hk, getL_eq cm key l hact] at h
              exact (List.mem_erase_of_ne hne).mpr h
            · refine ih _ _ w k hne ?_
              rw [getL_mk, upd_ne _ _ _ hk]
              exact h

theorem removeFromKeys_nodup (ws : Nat) (env : TeardownEnv) :
    ∀ (ks : List Key) (cm : ConnectionManager) (dm : DirectoryMonitor),
      (∀ k l, cm.active_connections k = some l → l.Nodup) →
      ∀ k l, (removeFromKeys ws env ks cm dm).1.active_connections k = some l →
        l.Nodup := by
  intro ks
  induction ks with
  | nil =>
      intro cm dm hn k l h
      exact hn k l h
  | cons key rest ih =>
      intro cm dm hn k l h
      rw [removeFromKeys] at h
      cases hact : cm.active_connections key with
      | none =>
          simp only [hact] at h
          exact ih cm dm hn k l h
      | some l0 =>
          simp only [hact] at h
          by_cases he : l0.erase ws = []
          · rw [if_pos he] at h
            refine ih _ _ ?_ k l h
            intro k' l' h'
            have h'' : upd cm.active_connections key none k' = some l' := h'
            by_cases hk : k' = key
            · rw [hk, upd_same] at h''
              cases h''
            · rw [upd_ne _ _ _ hk] at h''
              exact hn k' l' h''
          · rw [if_neg he] at h
            refine ih _ _ ?_ k l h
            intro k' l' h'
            have h'' : upd cm.active_connections key (some (l0.erase ws)) k'
                = some l' := h'
            by_cases hk : k' = key
            · rw [hk, upd_same] at h''
              cases h''
              exact (hn key l0 hact).erase ws
            · rw [upd_ne _ _ _ hk] at h''
              exact hn k' l' h''

theorem removeFromKeys_removes (ws : Nat) (env : TeardownEnv) :
    ∀ (ks : List Key) (cm : ConnectionManager) (dm : DirectoryMonitor),
      (∀ k l, cm.active_connections k = some l → l.Nodup) →
      (∀ k, ws ∈ getL cm k → k ∈ ks) →
      ∀ k, ws ∉ getL (removeFromKeys ws env ks cm dm).1 k := by
  intro ks
  induction ks with
  | nil =>
      intro cm dm _ hcov k hmem
      exact absurd (hcov k hmem) (List.not_mem_nil k)
  | cons key rest ih =>
      intro cm dm hn hcov k
      rw [removeFromKeys]
      cases hact : cm.active_connections key with
      | none =>
          refine ih cm dm hn ?_ k
          intro k' hm'
          rcases List.mem_cons.mp (hcov k' hm') with h | h
          · exfalso
            rw [h, getL, hact] at hm'
            cases hm'
          · exact h
      | some l =>
          simp only [hact]
          by_cases he : l.erase ws = []
          · rw [if_pos he]
            refine ih _ _ ?_ ?_ k
            · intro k' l' h'
              have h'' : upd cm.active_connections key none k' = some l' := h'
              by_cases hk : k' = key
              · rw [hk, upd_same] at h''
                cases h''
              · rw [upd_ne _ _ _ hk] at h''
                exact hn k' l' h''
            · intro k' hm'
              rw [getL_mk] at hm'
              by_cases hk : k' = key
              · rw [hk, upd_same] at hm'
                simp at hm'
              · rw [upd_ne _ _ _ hk] at hm'
                rcases List.mem_cons.mp (hcov k' hm') with h | h
                · exact absurd h hk
                · exact h
          · rw [if_neg he]
            refine ih _ _ ?_ ?_ k
            · intro k' l' h'
              have h'' : upd cm.active_connections key (some (l.erase ws)) k'
                  = some l' := h'
              by_cases hk : k' = key
              · rw [hk, upd_same] at h''
                cases h''
                exact (hn key l hact).erase ws
              · rw [upd_ne _ _ _ hk] at h''
                exact hn k' l' h''
            · intro k' hm'
              rw [getL_mk] at hm'
              by_cases hk : k' = key
              · exfalso
                rw [hk, upd_same] at hm'
                simp only [Option.getD_some] at hm'
                have := ((hn key l hact).mem_erase_iff).mp hm'
                exact this.1 rfl
              · rw [upd_ne _ _ _ hk] at hm'
                rcases List.mem_cons.mp (hcov k' hm') with h | h
                · exact absurd h hk
                · exact h

theorem disconnect_subs_other (cm : ConnectionManager) (dm : DirectoryMonitor)
    (ws : Nat) (env : TeardownEnv) (w : Nat) (hw : w ≠ ws) :
    (cm.disconnect dm ws env).1.subscriptions w = cm.subscriptions w := by
  rw [ConnectionManager.disconnect]
  cases hsub : cm.subscriptions ws with
  | none => rfl
  | some ks =>
      show (removeFromKeys ws env ks
        ⟨cm.active_connections, upd cm.subscriptions ws none⟩ dm).1.subscriptions w
          = cm.subscriptions w
      rw [removeFromKeys_subs]
      exact upd_ne _ _ _ hw

theorem disconnect_subs_self (cm : ConnectionManager) (dm : DirectoryMonitor)
    (ws : Nat) (env : TeardownEnv) :
    (cm.disconnect dm ws env).1.subscriptions ws = none := by
  rw [ConnectionManager.disconnect]
  cases hsub : cm.subscriptions ws with
  | none => exact hsub
  | some ks =>
      show (removeFromKeys ws env ks
        ⟨cm.active_connections, upd cm.subscriptions ws none⟩ dm).1.subscriptions ws
          = none
      rw [removeFromKeys_subs]
      exact upd_same _ _ _

theorem disconnect_shrink (cm : ConnectionManager) (dm : DirectoryMonitor)
    (ws : Nat) (env : TeardownEnv) (w : Nat) (k : Key)
    (h : w ∈ getL (cm.disconnect dm ws env).1 k) : w ∈ getL cm k := by
  rw [ConnectionManager.disconnect] at h
  cases hsub : cm.subscriptions ws with
  | none =>
      rw [hsub] at h
      exact h
  | some ks =>
      rw [hsub] at h
      have h2 : w ∈ getL (removeFromKeys ws env ks
          ⟨cm.active_connections, upd cm.subscriptions ws none⟩ dm).1 k := h
      exact removeFromKeys_shrink ws env ks
        ⟨cm.active_connections, upd cm.subscriptions ws none⟩ dm w k h2

theorem disconnect_keep (cm : ConnectionManager) (dm : DirectoryMonitor)
    (ws : Nat) (env : TeardownEnv) (w : Nat) (k : Key) (hne : w ≠ ws)
    (h : w ∈ getL cm k) : w ∈ getL (cm.disconnect dm ws env).1 k := by
  rw [ConnectionManager.disconnect]
  cases hsub : cm.subscriptions ws with
  | none => exact h
  | some ks =>
      show w ∈ getL (removeFromKeys ws env ks
        ⟨cm.active_connections, upd cm.subscriptions ws none⟩ dm).1 k
      exact removeFromKeys_keep ws env ks _ dm w k hne h

theorem disconnect_removes (cm : ConnectionManager) (dm : DirectoryMonitor)
    (ws : Nat) (env : TeardownEnv) (hwf : WFbus cm) :
    ∀ k, ws ∉ getL (cm.disconnect dm ws env).1 k := by
  intro k hmem
  rw [ConnectionManager.disconnect] at hmem
  cases hsub : cm.subscriptions ws with
  | none =>
      rw [hsub] at hmem
      obtain ⟨ks', hs', _⟩ := hwf.2 k ws hmem
      rw [hsub] at hs'
      cases hs'
  | some ks =>
      rw [hsub] at hmem
      have hmem2 : ws ∈ getL (removeFromKeys ws env ks
          ⟨cm.active_connections, upd cm.subscriptions ws none⟩ dm).1 k := hmem
      refine removeFromKeys_removes ws env ks _ dm ?_ ?_ k hmem2
      · intro k' l' h'
        exact hwf.1 k' l' h'
      · intro k' hm'
        obtain ⟨ks', hs', hk'⟩ := hwf.2 k' ws hm'
        rw [hsub] at hs'
        cases hs'
        exact hk'

theorem disconnect_wf (cm : ConnectionManager) (dm : DirectoryMonitor)
    (ws : Nat) (env : TeardownEnv) (hwf : WFbus cm) :
    WFbus (cm.disconnect dm ws env).1 := by
  constructor
  · intro k l h
    rw [ConnectionManager.disconnect] at h
    cases hsub : cm.subscriptions ws with
    | none =>
        rw [hsub] at h
        exact hwf.1 k l h
    | some ks =>
        rw [hsub] at h
        have h2 : (removeFromKeys ws env ks
            ⟨cm.active_connections, upd cm.subscriptions ws none⟩
            dm).1.active_connections k = some l := h
        exact removeFromKeys_nodup ws env ks
          ⟨cm.active_connections, upd cm.subscriptions ws none⟩ dm
          (fun kq lq hq => hwf.1 kq lq hq) k l h2
  · intro k w hw
    have hw0 := disconnect_shrink cm dm ws env w k hw
    obtain ⟨ks', hs', hk'⟩ := hwf.2 k w hw0
    by_cases hww : w = ws
    · exfalso
      rw [hww] at hw
      exact disconnect_removes cm dm ws env hwf k hw
    · rw [disconnect_subs_other cm dm ws env w hww]
      exact ⟨ks', hs', hk'⟩

theorem disconnectAll_shrink (env : TeardownEnv) :
    ∀ (l : List Nat) (cm : ConnectionManager) (dm : DirectoryMonitor)
      (w : Nat) (k : Key),
      w ∈ getL (disconnectAll env l cm dm).1 k → w ∈ getL cm k := by
  intro l
  induction l with
  | nil =>
      intro cm dm w k h
      exact h
  | cons w0 rest ih =>
      intro cm dm w k h
      rw [disconnectAll] at h
      exact disconnect_shrink cm dm w0 env w k (ih _ _ w k h)

theorem disconnectAll_keep (env : TeardownEnv) :
    ∀ (l : List Nat) (cm : ConnectionManager) (dm : DirectoryMonitor)
      (w : Nat) (k : Key), (∀ w' ∈ l, w ≠ w') → w ∈ getL cm k →
      w ∈ getL (disconnectAll env l cm dm).1 k := by
  intro l
  induction l with
  | nil =>
      intro cm dm w k _ h
      exact h
  | cons w0 rest ih =>
      intro cm dm w k hne h
      rw [disconnectAll]
      refine ih _ _ w k (fun w' hw' => hne w' (List.mem_cons_of_mem w0 hw')) ?_
      exact disconnect_keep cm dm w0 env w k (hne w0 (List.mem_cons_self w0 rest)) h

theorem disconnectAll_subs_none (env : TeardownEnv) :
    ∀ (l : List Nat) (cm : ConnectionManager) (dm : DirectoryMonitor) (w : Nat),
      cm.subscriptions w = none →
      (disconnectAll env l cm dm).1.subscriptions w = none := by
  intro l
  induction l with
  | nil =>
      intro cm dm w h
      exact h
  | cons w0 rest ih =>
      intro cm dm w h
      rw [disconnectAll]
      refine ih _ _ w ?_
      by_cases hww : w = w0
      · rw [hww]
        exact disconnect_subs_self cm dm w0 env
      · rw [disconnect_subs_other cm dm w0 env w hww]
        exact h

theorem disconnectAll_wf (env : TeardownEnv) :
    ∀ (l : List Nat) (cm : ConnectionManager) (dm : DirectoryMonitor),
      WFbus cm → WFbus (disconnectAll env l cm dm).1 := by
  intro l
  induction l with
  | nil =>
      intro cm dm h
      exact h
  | cons w0 rest ih =>
      intro cm dm h
      rw [disconnectAll]
      exact ih _ _ (disconnect_wf cm dm w0 env h)

theorem disconnectAll_removes (env : TeardownEnv) :
    ∀ (l : List Nat) (cm : ConnectionManager) (dm : DirectoryMonitor),
      WFbus cm → ∀ w ∈ l,
        (∀ k, w ∉ getL (disconnectAll env l cm dm).1 k) ∧
        (disconnectAll env l cm dm).1.subscriptions w = none := by
  intro l
  induction l with
  | nil =>
      intro cm dm _ w hw
      cases hw
  | cons w0 rest ih =>
      intro cm dm hwf w hw
      rw [disconnectAll]
      rcases List.mem_cons.mp hw with rfl | hw'
      · constructor
        · intro k hmem
          exact disconnect_removes cm dm w env hwf k
            (disconnectAll_shrink env rest _ _ w k hmem)
        · exact disconnectAll_subs_none env rest _ _ w
            (disconnect_subs_self cm dm w env)
      · exact ih _ _ (disconnect_wf cm dm w0 env hwf) w hw'

/-- Claim C6: broadcast delivers to the subscriber set snapshotted at entry —
every snapshot member gets a delivery attempt, and all delivery events precede
every removal effect; a subscriber whose delivery fails is removed from the
live subscriber set of every key, with its inverse-mapping entry discarded by
the same cascade as a transport disconnect; every other subscriber of the
same broadcast still receives the event and stays subscribed. -/
theorem c6_broadcast_snapshot_and_prune :
    ∀ (cm : ConnectionManager) (dm : DirectoryMonitor) (cid path : String)
      (env : NotifyEnv) (wss : List Nat),
      WFbus cm →
      cm.active_connections (mkKey cid path) = some wss →
      (∃ t2, (cm.notify_directory_change dm cid path env).2.2 =
          (wss.map fun w => Ev.deliver w (!env.sendFails w)) ++ t2 ∧
          ∀ e ∈ t2, e.isDeliverEv = false) ∧
      (∀ w ∈ wss, env.sendFails w = false →
        Ev.deliver w true ∈ (cm.notify_directory_change dm cid path env).2.2 ∧
        w ∈ getL (cm.notify_directory_change dm cid path env).1 (mkKey cid path)) ∧
      (∀ w ∈ wss, env.sendFails w = true →
        (∀ k, w ∉ getL (cm.notify_directory_change dm cid path env).1 k) ∧
        (cm.notify_directory_change dm cid path env).1.subscriptions w = none) := by
  intro cm dm cid path env wss hwf hact
  have heq1 : (cm.notify_directory_change dm cid path env).2.2 =
      (wss.map fun w => Ev.deliver w (!env.sendFails w)) ++
        (disconnectAll env.teardown (wss.filter env.sendFails) cm dm).2.2 := by
    simp only [ConnectionManager.notify_directory_change, hact]
  have heq2 : (cm.notify_directory_change dm cid path env).1 =
      (disconnectAll env.teardown (wss.filter env.sendFails) cm dm).1 := by
    simp only [ConnectionManager.notify_directory_change, hact]
  refine ⟨⟨(disconnectAll env.teardown (wss.filter env.sendFails) cm dm).2.2, heq1,
    fun e he => disconnectAll_no_deliver env.teardown _ cm dm e he⟩, ?_, ?_⟩
  · intro w hw hf
    constructor
    · rw [heq1]
      refine List.mem_append_left _ ?_
      have hmem : Ev.deliver w (!env.sendFails w) ∈
          wss.map fun v => Ev.deliver v (!env.sendFails v) :=
        List.mem_map_of_mem _ hw
      rw [hf] at hmem
      simpa using hmem
    · rw [heq2]
      refine disconnectAll_keep env.teardown _ cm dm w (mkKey cid path) ?_ ?_
      · intro v hv hwv
        have hvf := (List.mem_filter.mp hv).2
        rw [← hwv, hf] at hvf
        cases hvf
      · rw [getL_eq cm _ wss hact]
        exact hw
  · intro w hw ht
    have hwfil : w ∈ wss.filter env.sendFails := List.mem_filter.mpr ⟨hw, ht⟩
    have hres := disconnectAll_removes env.teardown
      (wss.filter env.sendFails) cm dm hwf w hwfil
    constructor
    · intro k
      rw [heq2]
      exact hres.1 k
    · rw [heq2]
      exact hres.2

/-- Two live subscribers of one key, the second of which fails delivery. -/
def cmW : ConnectionManager :=
  ⟨upd (fun _ => none) "c:d" (some [1, 2]),
    upd (upd (fun _ => none) 1 (some ["c:d"])) 2 (some ["c:d"])⟩

def envW : NotifyEnv := ⟨fun w => w == 2, tenv0⟩

theorem cmW_wf : WFbus cmW := by
  constructor
  · intro k l h
    have h2 : upd (fun _ => none) "c:d" (some [1, 2]) k = some l := h
    by_cases hk : k = "c:d"
    · rw [hk, upd_same] at h2
      cases h2
      decide
    · rw [upd_ne _ _ _ hk] at h2
      cases h2
  · intro k w hw
    have hw2 : w ∈ (upd (fun _ => none) "c:d" (some [1, 2]) k).getD [] := hw
    by_cases hk : k = "c:d"
    · rw [hk, upd_same] at hw2
      subst hk
      simp only [Option.getD_some, List.mem_cons, List.not_mem_nil, or_false] at hw2
      rcases hw2 with rfl | rfl
      · exact ⟨["c:d"], by decide, by decide⟩
      · exact ⟨["c:d"], by decide, by decide⟩
    · rw [upd_ne _ _ _ hk] at hw2
      cases hw2

theorem c6_witness :
    (1 ∈ getL (cmW.notify_directory_change dmOne "c" "d" envW).1 (mkKey "c" "d")) ∧
    Ev.deliver 1 true ∈ (cmW.notify_directory_change dmOne "c" "d" envW).2.2 ∧
    (∀ k, 2 ∉ getL (cmW.notify_directory_change dmOne "c" "d" envW).1 k) ∧
    (cmW.notify_directory_change dmOne "c" "d" envW).1.subscriptions 2 = none := by
  have h := c6_broadcast_snapshot_and_prune cmW dmOne "c" "d" envW [1, 2]
    cmW_wf (by decide)
  have h1 := h.2.1 1 (by decide) rfl
  have h2 := h.2.2 2 (by decide) rfl
  exact ⟨h1.2, h1.1, h2.1, h2.2⟩

end Sambee
